import Mathlib

/-!
Shallow embedding of the AI-EYES surveillance core (Python) in Lean 4.

Source files embedded here:
- `backend/surveillance/tracker.py` (`PersonTracker`)
- `backend/surveillance/activity_analyzer.py` (`SuspiciousActivityAnalyzer`)
- `backend/surveillance/alert_manager.py` (`AlertManager`)
- `backend/multi_camera_surveillance.py` (authorization-memory logic of
  `process_frame_ai`)

Machine conventions: Python floats (timestamps, confidences, IoU scores) are
modelled as `ℚ`; pixel coordinates are `ℤ` (the code stores them as Python
ints); Python dicts whose iteration order matters are association lists in
insertion order.
-/

namespace AIEyes

/-- A bounding box `[x1, y1, x2, y2]` in pixel coordinates, as used by
`tracker.py` (`bbox_xyxy`). -/
structure Box where
  x1 : ℤ
  y1 : ℤ
  x2 : ℤ
  y2 : ℤ
deriving DecidableEq, Repr

/-- `PersonTracker._calculate_iou` (tracker.py lines 76-112): intersection
over union of two `[x1,y1,x2,y2]` boxes, with the two early-return guards of
the source (`xi1 >= xi2 or yi1 >= yi2` and `union <= 0`). -/
def calculate_iou (box1 box2 : Box) : ℚ :=
  let xi1 := max box1.x1 box2.x1
  let yi1 := max box1.y1 box2.y1
  let xi2 := min box1.x2 box2.x2
  let yi2 := min box1.y2 box2.y2
  if xi1 ≥ xi2 ∨ yi1 ≥ yi2 then 0
  else
    let intersection := (xi2 - xi1) * (yi2 - yi1)
    let area1 := (box1.x2 - box1.x1) * (box1.y2 - box1.y1)
    let area2 := (box2.x2 - box2.x1) * (box2.y2 - box2.y1)
    let union := area1 + area2 - intersection
    if union ≤ 0 then 0
    else (intersection : ℚ) / (union : ℚ)

/-- Python `int()` applied to a float: truncation toward zero. -/
def pyInt (q : ℚ) : ℤ :=
  if 0 ≤ q then ⌊q⌋ else ⌈q⌉

/-- One sample of a track's `position_history`. -/
structure PosSample where
  timestamp : ℚ
  center : ℤ × ℤ
  bbox : Box
deriving DecidableEq, Repr

/-- `authorization_status` of a track (`'pending'`, `'authorized'`,
`'intruder'`; `'unknown'` is the `.get` default used by the analyzer). -/
inductive AuthStatus
  | pending
  | authorized
  | intruder
  | unknown
deriving DecidableEq, Repr

/-- A person detection as consumed by `PersonTracker.update` and the
analyzer: `{bbox, confidence, class_id, class_name}`. -/
structure Detection where
  bbox : Box
  confidence : ℚ
  classId : ℕ
  className : String
deriving DecidableEq, Repr

/-- The per-track state dictionary kept in `PersonTracker.track_states`. -/
structure TrackState where
  trackId : ℕ
  bbox : Box
  center : ℤ × ℤ
  detection : Detection
  confidence : ℚ
  createdTime : ℚ
  lastUpdate : ℚ
  frameCount : ℕ
  positionHistory : List PosSample
  identity : String
  authorizationStatus : AuthStatus
deriving DecidableEq, Repr

/-- The mutable state of a `PersonTracker` instance.  `tracks` models the
pair of dicts `active_tracks` / `track_states` (they always hold the same
keys), as an insertion-ordered association list. -/
structure PersonTracker where
  maxTracks : ℕ
  trackTimeout : ℚ
  minTrackLength : ℕ
  iouThreshold : ℚ
  nextTrackId : ℕ
  tracks : List (ℕ × TrackState)
deriving Repr

/-- Result of the external per-object OpenCV tracker for one track on this
frame: `some (x, y, w, h)` on success, `none` on failure.  The frame itself
is opaque to the core, so `update`'s frame argument is modelled as this
oracle. -/
def TrackerOracle : Type := ℕ → Option (ℤ × ℤ × ℤ × ℤ)

/-- Step 1 of `PersonTracker.update` (tracker.py lines 184-219): advance each
live track's per-object tracker; on success refresh bbox/center/frame count
and append to `position_history` (truncated to the trailing 10 seconds); on
failure the track is removed. -/
def advanceTracks (oracle : TrackerOracle) (now : ℚ) :
    List (ℕ × TrackState) → List (ℕ × TrackState)
  | [] => []
  | (tid, st) :: rest =>
    match oracle tid with
    | none => advanceTracks oracle now rest
    | some (x, y, w, h) =>
      let bboxXyxy : Box := ⟨x, y, x + w, y + h⟩
      let c : ℤ × ℤ := (pyInt ((x : ℚ) + (w : ℚ) / 2), pyInt ((y : ℚ) + (h : ℚ) / 2))
      let hist := st.positionHistory ++ [⟨now, c, bboxXyxy⟩]
      let st' := { st with
        bbox := bboxXyxy
        lastUpdate := now
        center := c
        frameCount := st.frameCount + 1
        positionHistory := hist.filter (fun s => now - s.timestamp ≤ 10) }
      (tid, st') :: advanceTracks oracle now rest

/-- The inner loop of `_match_detections_to_tracks` (tracker.py lines
150-163): scan the detections in index order, skipping indices in `used`,
keeping the strictly-best IoU above the threshold (`best_iou` starts at 0,
`best_detection_idx` at -1, modelled as `none`). -/
def bestDetection (thr : ℚ) (trackBbox : Box) (used : List ℕ) :
    List Detection → ℕ → ℚ → Option ℕ → Option ℕ
  | [], _, _, best => best
  | det :: rest, idx, bestIou, best =>
    if idx ∈ used then
      bestDetection thr trackBbox used rest (idx + 1) bestIou best
    else
      let iou := calculate_iou trackBbox det.bbox
      if iou > thr ∧ iou > bestIou then
        bestDetection thr trackBbox used rest (idx + 1) iou (some idx)
      else
        bestDetection thr trackBbox used rest (idx + 1) bestIou best

/-- The outer loop of `_match_detections_to_tracks` (tracker.py lines
147-169): greedily assign each track (in dict order) its best unused
detection, recording used detection indices. -/
def matchGo (thr : ℚ) (detections : List Detection) :
    List (ℕ × TrackState) → List ℕ → List (ℕ × ℕ)
  | [], _ => []
  | (tid, st) :: rest, used =>
    match bestDetection thr st.bbox used detections 0 0 none with
    | none => matchGo thr detections rest used
    | some d => (tid, d) :: matchGo thr detections rest (d :: used)

/-- `PersonTracker._match_detections_to_tracks` (tracker.py lines 127-169).
Returns the map track-id → detection-index.  The early return for no tracks
or no detections is behaviourally the empty map, as here. -/
def match_detections_to_tracks (tr : PersonTracker) (detections : List Detection) :
    List (ℕ × ℕ) :=
  matchGo tr.iouThreshold detections tr.tracks []

/-- Association-list lookup (Python `dict[k]` / `k in dict`). -/
def alookup {κ α : Type} [DecidableEq κ] (k : κ) : List (κ × α) → Option α
  | [] => none
  | (k', v) :: rest => if k = k' then some v else alookup k rest

/-- Association-list store (Python `dict[k] = v`): replace the value at the
first occurrence of `k`, or append if absent. -/
def astore {κ α : Type} [DecidableEq κ] (k : κ) (v : α) : List (κ × α) → List (κ × α)
  | [] => [(k, v)]
  | (k', v') :: rest => if k = k' then (k, v) :: rest else (k', v') :: astore k v rest

/-- Association-list delete (Python `del dict[k]`; keys are unique in a
dict, so removing the first occurrence suffices). -/
def aremove {κ α : Type} [DecidableEq κ] (k : κ) : List (κ × α) → List (κ × α)
  | [] => []
  | (k', v') :: rest => if k = k' then rest else (k', v') :: aremove k rest

/-- Update of matched tracks with detection info (tracker.py lines 225-229):
set `detection` and `confidence` from the matched detection. -/
def applyMatches (detections : List Detection) (matchMap : List (ℕ × ℕ)) :
    List (ℕ × TrackState) → List (ℕ × TrackState)
  | [] => []
  | (tid, st) :: rest =>
    let st' := match alookup tid matchMap with
      | none => st
      | some d => match detections.get? d with
        | none => st
        | some det => { st with detection := det, confidence := det.confidence }
    (tid, st') :: applyMatches detections matchMap rest

/-- `PersonTracker._create_new_track` state (tracker.py lines 271-293): a
fresh track seeded from one detection.  (`initOk` stands for the external
`_create_tracker` / `tracker.init` succeeding; on failure no track is
added.) -/
def newTrackState (tid : ℕ) (det : Detection) (now : ℚ) : TrackState :=
  let c : ℤ × ℤ :=
    (Int.fdiv (det.bbox.x1 + det.bbox.x2) 2, Int.fdiv (det.bbox.y1 + det.bbox.y2) 2)
  { trackId := tid
    bbox := det.bbox
    center := c
    detection := det
    confidence := det.confidence
    createdTime := now
    lastUpdate := now
    frameCount := 1
    positionHistory := [⟨now, c, det.bbox⟩]
    identity := "unknown"
    authorizationStatus := AuthStatus.pending }

/-- Creation of new tracks for unmatched detections (tracker.py lines
231-235): scan detections in index order, skipping matched indices, and
create a track while the live-track count is below `max_tracks`. -/
def createNewTracks (initOk : ℕ → Bool) (maxTracks : ℕ) (now : ℚ)
    (matchedIdx : List ℕ) :
    List Detection → ℕ → ℕ → List (ℕ × TrackState) → (ℕ × List (ℕ × TrackState))
  | [], _, nextId, acc => (nextId, acc)
  | det :: rest, idx, nextId, acc =>
    if idx ∉ matchedIdx ∧ acc.length < maxTracks then
      if initOk idx then
        createNewTracks initOk maxTracks now matchedIdx rest (idx + 1) (nextId + 1)
          (acc ++ [(nextId, newTrackState nextId det now)])
      else
        createNewTracks initOk maxTracks now matchedIdx rest (idx + 1) nextId acc
    else
      createNewTracks initOk maxTracks now matchedIdx rest (idx + 1) nextId acc

/-- `PersonTracker._cleanup_old_tracks` (tracker.py lines 311-324): drop
every track with `current_time - last_update > track_timeout`. -/
def cleanup_old_tracks (timeout : ℚ) (now : ℚ) (tracks : List (ℕ × TrackState)) :
    List (ℕ × TrackState) :=
  tracks.filter (fun p => ¬ (now - p.2.lastUpdate > timeout))

/-- `PersonTracker.update` (tracker.py lines 171-246).  `oracle` is the
per-object tracker's result on this frame; `initOk` tells whether creating a
tracker for a new detection succeeds.  Returns the new tracker state and the
returned map of confirmed tracks (`frame_count ≥ min_track_length`). -/
def PersonTracker.update (tr : PersonTracker) (oracle : TrackerOracle)
    (initOk : ℕ → Bool) (detections : List Detection) (now : ℚ) :
    PersonTracker × List (ℕ × TrackState) :=
  let advanced := advanceTracks oracle now tr.tracks
  let matchMap := matchGo tr.iouThreshold detections advanced []
  let matched := applyMatches detections matchMap advanced
  let created := createNewTracks initOk tr.maxTracks now (matchMap.map Prod.snd)
    detections 0 tr.nextTrackId matched
  let cleaned := cleanup_old_tracks tr.trackTimeout now created.2
  let confirmed := cleaned.filter (fun p => p.2.frameCount ≥ tr.minTrackLength)
  ({ tr with nextTrackId := created.1, tracks := cleaned }, confirmed)

/-! ## Activity analyzer (`activity_analyzer.py`) -/

/-- `ActivityType` enum (activity_analyzer.py lines 17-26). -/
inductive ActivityType
  | loitering
  | zoneIntrusion
  | abandonedObject
  | weaponDetected
  | unauthorizedPerson
  | crowdFormation
  | running
  | fighting
deriving DecidableEq, Repr

/-- The `.value` string of an `ActivityType` member. -/
def ActivityType.value : ActivityType → String
  | .loitering => "loitering"
  | .zoneIntrusion => "zone_intrusion"
  | .abandonedObject => "abandoned_object"
  | .weaponDetected => "weapon_detected"
  | .unauthorizedPerson => "unauthorized_person"
  | .crowdFormation => "crowd_formation"
  | .running => "running"
  | .fighting => "fighting"

/-- `ThreatLevel` enum (activity_analyzer.py lines 28-33). -/
inductive ThreatLevel
  | low
  | medium
  | high
  | critical
deriving DecidableEq, Repr

/-- The string stored in `track_states['authorization_status']`. -/
def AuthStatus.value : AuthStatus → String
  | .pending => "pending"
  | .authorized => "authorized"
  | .intruder => "intruder"
  | .unknown => "unknown"

/-- `DetectionZone` dataclass (activity_analyzer.py lines 35-41). -/
structure DetectionZone where
  name : String
  points : List (ℤ × ℤ)
  zoneType : String
  activityTypes : List ActivityType
deriving DecidableEq, Repr

/-- One value of the free-form `evidence` dict of an activity. -/
inductive EvidenceValue
  | str (s : String)
  | num (q : ℚ)
deriving DecidableEq, Repr

/-- `SuspiciousActivity` dataclass (activity_analyzer.py lines 43-54).
`trackId` is `ℤ` because abandoned-object events use the sentinel `-1`. -/
structure SuspiciousActivity where
  activityType : ActivityType
  threatLevel : ThreatLevel
  trackId : ℤ
  description : String
  timestamp : ℚ
  location : ℤ × ℤ
  zoneName : String
  confidence : ℚ
  evidence : List (String × EvidenceValue)
deriving DecidableEq, Repr

/-- State kept in `self.stationary_objects` values (activity_analyzer.py
lines 429-435). -/
structure StationaryObject where
  firstSeen : ℚ
  lastSeen : ℚ
  location : ℤ × ℤ
  detection : Detection
deriving DecidableEq, Repr

/-- The mutable state of a `SuspiciousActivityAnalyzer` instance
(activity_analyzer.py lines 61-91). -/
structure Analyzer where
  loiteringThreshold : ℚ
  abandonedObjectThreshold : ℚ
  speedThreshold : ℚ
  crowdThreshold : ℕ
  zones : List DetectionZone
  activeActivities : List (String × SuspiciousActivity)
  activityHistory : List SuspiciousActivity
  stationaryObjects : List (String × StationaryObject)
  zoneIntrusions : List ((ℕ × String) × ℚ)
deriving Repr

/-- One iteration of the ray-casting loop body of `point_in_polygon`
(activity_analyzer.py lines 129-138).  The running state is
`(inside, xinters, p1)`; `xinters` is `none` while the Python local variable
is still unassigned, and reading it unassigned (a Python `NameError") is
modelled by returning `none` for the whole computation. -/
def pipStep (x y : ℚ) (st : Bool × Option ℚ × (ℚ × ℚ)) (p2 : ℚ × ℚ) :
    Option (Bool × Option ℚ × (ℚ × ℚ)) :=
  let inside := st.1
  let xinters := st.2.1
  let p1x := st.2.2.1
  let p1y := st.2.2.2
  let p2x := p2.1
  let p2y := p2.2
  if y > min p1y p2y ∧ y ≤ max p1y p2y ∧ x ≤ max p1x p2x then
    let xinters' := if p1y ≠ p2y
      then some ((y - p1y) * (p2x - p1x) / (p2y - p1y) + p1x)
      else xinters
    if p1x = p2x then some (!inside, xinters', p2)
    else
      match xinters' with
      | none => none
      | some xv => some ((if x ≤ xv then !inside else inside), xinters', p2)
  else
    some (inside, xinters, p2)

/-- One fold step of the `for i in range(n + 1)` loop of `point_in_polygon`:
fetch `polygon[i % n]` and run the loop body. -/
def pipFold (x y : ℚ) (polygon : List (ℚ × ℚ))
    (acc : Option (Bool × Option ℚ × (ℚ × ℚ))) (i : ℕ) :
    Option (Bool × Option ℚ × (ℚ × ℚ)) :=
  acc.bind (fun st =>
    match polygon.get? (i % polygon.length) with
    | none => none
    | some p2 => pipStep x y st p2)

/-- `SuspiciousActivityAnalyzer.point_in_polygon` (activity_analyzer.py
lines 113-140): ray-casting membership test.  Returns `none` exactly when
the Python code would raise (empty polygon: `polygon[0]` is an IndexError;
`xinters` read before assignment: a NameError). -/
def point_in_polygon (point : ℚ × ℚ) (polygon : List (ℚ × ℚ)) : Option Bool :=
  match polygon with
  | [] => none
  | p0 :: _ =>
    ((List.range (polygon.length + 1)).foldl (pipFold point.1 point.2 polygon)
      (some (false, none, p0))).map (fun st => st.1)

/-- Zone membership for integer pixel points.  For the degenerate case where
`point_in_polygon` would raise in Python (empty polygon) this returns
`false`; `point_in_polygon_total` below shows the partial cases are
unreachable for polygons with at least one vertex. -/
def zoneContains (zone : DetectionZone) (point : ℤ × ℤ) : Bool :=
  (point_in_polygon ((point.1 : ℚ), (point.2 : ℚ))
    (zone.points.map (fun q => ((q.1 : ℚ), (q.2 : ℚ))))).getD false

/-- `SuspiciousActivityAnalyzer.get_zone_for_point` (activity_analyzer.py
lines 142-155): first zone (in insertion order) containing the point. -/
def get_zone_for_point (zones : List DetectionZone) (point : ℤ × ℤ) :
    Option DetectionZone :=
  zones.find? (fun z => zoneContains z point)

/-- Squared Euclidean distance between two integer points.  The Python code
compares `np.sqrt(dx**2 + dy**2)` against constants (50, 100) and against
other such distances; since real square root is strictly monotone, those
comparisons are modelled exactly on the squares. -/
def distSq (p q : ℤ × ℤ) : ℤ :=
  (p.1 - q.1) ^ 2 + (p.2 - q.2) ^ 2

/-- The distance/time sums of `calculate_movement_speed`
(activity_analyzer.py lines 176-190) over consecutive samples.  `sqrtFn`
abstracts the machine floating-point `np.sqrt` (used only here, where the
result enters a sum and cannot be rationalized away). -/
def speedSums (sqrtFn : ℚ → ℚ) : List PosSample → ℚ × ℚ
  | [] => (0, 0)
  | [_] => (0, 0)
  | p :: q :: rest =>
    let d := sqrtFn ((distSq q.center p.center : ℤ) : ℚ)
    let s := speedSums sqrtFn (q :: rest)
    (d + s.1, (q.timestamp - p.timestamp) + s.2)

/-- `SuspiciousActivityAnalyzer.calculate_movement_speed`
(activity_analyzer.py lines 157-194): displacement over the last 5 history
samples divided by elapsed time. -/
def calculate_movement_speed (sqrtFn : ℚ → ℚ) (ts : TrackState) : ℚ :=
  if ts.positionHistory.length < 2 then 0
  else
    let recent := ts.positionHistory.drop (ts.positionHistory.length - 5)
    if recent.length < 2 then 0
    else
      let s := speedSums sqrtFn recent
      if s.2 > 0 then s.1 / s.2 else 0

/-- `SuspiciousActivityAnalyzer.detect_loitering` (activity_analyzer.py
lines 196-251).  The `'position_history' not in track_state` guard is
dropped: the field always exists in this model, as it does for every track
built by `tracker.py`. -/
def detect_loitering (a : Analyzer) (ts : TrackState) (now : ℚ) :
    Option SuspiciousActivity :=
  match get_zone_for_point a.zones ts.center with
  | none => none
  | some zone =>
    if ActivityType.loitering ∉ zone.activityTypes then none
    else
      let recent := ts.positionHistory.filter
        (fun h => now - h.timestamp ≤ a.loiteringThreshold)
      if recent.length < 2 then none
      else
        match recent with
        | [] => none
        | startPos :: restPos =>
          let isLoitering := restPos.all
            (fun p => ¬ (distSq p.center startPos.center > 50 ^ 2))
          if isLoitering ∧ (recent.length : ℚ) ≥ a.loiteringThreshold * 2 then
            some
              { activityType := ActivityType.loitering
                threatLevel := ThreatLevel.medium
                trackId := (ts.trackId : ℤ)
                description := "Person loitering in " ++ zone.name ++ " for "
                  ++ toString a.loiteringThreshold ++ "+ seconds"
                timestamp := now
                location := ts.center
                zoneName := zone.name
                confidence := 8 / 10
                evidence := [("duration", .num ((recent.length : ℚ) / 2)),
                             ("zone", .str zone.name)] }
          else none

/-- `SuspiciousActivityAnalyzer.detect_zone_intrusion` (activity_analyzer.py
lines 253-299).  Returns the optional event and the analyzer with
`zone_intrusions` possibly extended. -/
def detect_zone_intrusion (a : Analyzer) (ts : TrackState) (now : ℚ) :
    Option SuspiciousActivity × Analyzer :=
  match get_zone_for_point a.zones ts.center with
  | none => (none, a)
  | some zone =>
    if zone.zoneType ≠ "restricted" then (none, a)
    else if ActivityType.zoneIntrusion ∉ zone.activityTypes then (none, a)
    else if ts.authorizationStatus = AuthStatus.authorized then (none, a)
    else
      let key := (ts.trackId, zone.name)
      if (alookup key a.zoneIntrusions).isSome then (none, a)
      else
        let a' := { a with zoneIntrusions := astore key now a.zoneIntrusions }
        let lvl := if ts.authorizationStatus = AuthStatus.intruder
          then ThreatLevel.high else ThreatLevel.medium
        (some
          { activityType := ActivityType.zoneIntrusion
            threatLevel := lvl
            trackId := (ts.trackId : ℤ)
            description := "Unauthorized person entered restricted zone: " ++ zone.name
            timestamp := now
            location := ts.center
            zoneName := zone.name
            confidence := 9 / 10
            evidence := [("authorization_status", .str ts.authorizationStatus.value),
                         ("zone_type", .str zone.zoneType)] }, a')

/-- `SuspiciousActivityAnalyzer.detect_unauthorized_person`
(activity_analyzer.py lines 301-342).  Returns the optional event and the
analyzer with `active_activities` possibly extended. -/
def detect_unauthorized_person (a : Analyzer) (ts : TrackState) (now : ℚ) :
    Option SuspiciousActivity × Analyzer :=
  if ts.authorizationStatus ≠ AuthStatus.intruder then (none, a)
  else
    let activityId := "unauthorized_" ++ toString ts.trackId
    if (alookup activityId a.activeActivities).isSome then (none, a)
    else
      let zoneName := match get_zone_for_point a.zones ts.center with
        | some zone => zone.name
        | none => "unknown_area"
      let act : SuspiciousActivity :=
        { activityType := ActivityType.unauthorizedPerson
          threatLevel := ThreatLevel.high
          trackId := (ts.trackId : ℤ)
          description := "Unauthorized person detected: " ++ ts.identity
          timestamp := now
          location := ts.center
          zoneName := zoneName
          confidence := 95 / 100
          evidence := [("identity", .str ts.identity),
                       ("authorization_status", .str ts.authorizationStatus.value)] }
      (some act, { a with activeActivities := astore activityId act a.activeActivities })

/-- `SuspiciousActivityAnalyzer.detect_running` (activity_analyzer.py lines
473-505).  (The Python `f"{speed:.1f}"` formatting in the description is
rendered as the exact rational.) -/
def detect_running (sqrtFn : ℚ → ℚ) (a : Analyzer) (ts : TrackState) (now : ℚ) :
    Option SuspiciousActivity :=
  let speed := calculate_movement_speed sqrtFn ts
  if speed > a.speedThreshold then
    let zoneName := match get_zone_for_point a.zones ts.center with
      | some zone => zone.name
      | none => "unknown_area"
    some
      { activityType := ActivityType.running
        threatLevel := ThreatLevel.low
        trackId := (ts.trackId : ℤ)
        description := "Person running at high speed: " ++ toString speed ++ " px/s"
        timestamp := now
        location := ts.center
        zoneName := zoneName
        confidence := 7 / 10
        evidence := [("speed", .num speed), ("threshold", .num a.speedThreshold)] }
  else none

/-- The `(bbox[0] + bbox[2]) // 2, (bbox[1] + bbox[3]) // 2` center used for
weapon and bag detections (Python `//` is floor division). -/
def bboxCenterOf (b : Box) : ℤ × ℤ :=
  (Int.fdiv (b.x1 + b.x2) 2, Int.fdiv (b.y1 + b.y2) 2)

/-- `object_id = f"bag_{center_x}_{center_y}"` of a bag detection
(activity_analyzer.py line 426). -/
def objectIdOf (det : Detection) : String :=
  "bag_" ++ toString (bboxCenterOf det.bbox).1 ++ "_" ++ toString (bboxCenterOf det.bbox).2

/-- The closest-track scan of `detect_weapon` (activity_analyzer.py lines
369-379): nearest track center within 100 px, ties kept by first-seen
track, distances compared on squares (exact for a monotone square root). -/
def closestTrack (wc : ℤ × ℤ) : List (ℕ × TrackState) → Option (ℕ × ℤ) → Option ℕ
  | [], best => best.map Prod.fst
  | (tid, ts) :: rest, best =>
    let d := distSq ts.center wc
    let better : Bool := match best with
      | none => decide (d < 100 ^ 2)
      | some b => decide (d < b.2 ∧ d < 100 ^ 2)
    if better then closestTrack wc rest (some (tid, d))
    else closestTrack wc rest best

/-- `SuspiciousActivityAnalyzer.detect_weapon` (activity_analyzer.py lines
344-400). -/
def detect_weapon (a : Analyzer) (detections : List Detection)
    (tracks : List (ℕ × TrackState)) (now : ℚ) : List SuspiciousActivity :=
  let weaponClasses : List ℕ := [34, 43, 76]
  let weaponDets := detections.filter (fun det => det.classId ∈ weaponClasses)
  weaponDets.filterMap (fun det =>
    let wc : ℤ × ℤ := bboxCenterOf det.bbox
    match closestTrack wc tracks none with
    | none => none
    | some tid =>
      let zoneName := match get_zone_for_point a.zones wc with
        | some zone => zone.name
        | none => "unknown_area"
      some
        { activityType := ActivityType.weaponDetected
          threatLevel := ThreatLevel.critical
          trackId := (tid : ℤ)
          description := "Weapon detected: " ++ det.className
          timestamp := now
          location := wc
          zoneName := zoneName
          confidence := det.confidence
          evidence := [("weapon_type", .str det.className),
                       ("weapon_confidence", .num det.confidence)] })

/-- The per-detection loop body of `detect_abandoned_objects`
(activity_analyzer.py lines 419-462), threading `stationary_objects`. -/
def abandonedGo (a : Analyzer) (now : ℚ) :
    List Detection → List (String × StationaryObject) →
    List SuspiciousActivity × List (String × StationaryObject)
  | [], objs => ([], objs)
  | det :: rest, objs =>
    let c : ℤ × ℤ := bboxCenterOf det.bbox
    let objectId := objectIdOf det
    match alookup objectId objs with
    | none =>
      let objs' := astore objectId ⟨now, now, c, det⟩ objs
      abandonedGo a now rest objs'
    | some objState =>
      let objState' := { objState with lastSeen := now }
      let timeStationary := now - objState.firstSeen
      if timeStationary ≥ a.abandonedObjectThreshold then
        let zoneName := match get_zone_for_point a.zones c with
          | some zone => zone.name
          | none => "unknown_area"
        let act : SuspiciousActivity :=
          { activityType := ActivityType.abandonedObject
            threatLevel := ThreatLevel.medium
            trackId := -1
            description := "Abandoned object detected: " ++ det.className
            timestamp := now
            location := c
            zoneName := zoneName
            confidence := det.confidence
            evidence := [("object_type", .str det.className),
                         ("time_abandoned", .num timeStationary)] }
        let s := abandonedGo a now rest (aremove objectId objs)
        (act :: s.1, s.2)
      else
        abandonedGo a now rest (astore objectId objState' objs)

/-- `SuspiciousActivityAnalyzer.detect_abandoned_objects`
(activity_analyzer.py lines 402-471): process bag-class detections, then
garbage-collect states unseen for `2 × abandoned_object_threshold`. -/
def detect_abandoned_objects (a : Analyzer) (detections : List Detection)
    (now : ℚ) : List SuspiciousActivity × Analyzer :=
  let bagClasses : List ℕ := [24, 26, 28]
  let bagDets := detections.filter (fun det => det.classId ∈ bagClasses)
  let s := abandonedGo a now bagDets a.stationaryObjects
  let cutoff := now - a.abandonedObjectThreshold * 2
  (s.1, { a with stationaryObjects := s.2.filter (fun p => p.2.lastSeen > cutoff) })

/-- The per-track loop of `analyze_frame` (activity_analyzer.py lines
521-545): skip tracks with `frame_count < 10`, then run loitering, zone
intrusion, unauthorized person and running, in that order, threading the
analyzer state. -/
def analyzeTracksGo (sqrtFn : ℚ → ℚ) (now : ℚ) :
    List (ℕ × TrackState) → Analyzer → List SuspiciousActivity × Analyzer
  | [], a => ([], a)
  | (_, ts) :: rest, a =>
    if ts.frameCount < 10 then analyzeTracksGo sqrtFn now rest a
    else
      let l := detect_loitering a ts now
      let zi := detect_zone_intrusion a ts now
      let up := detect_unauthorized_person zi.2 ts now
      let r := detect_running sqrtFn up.2 ts now
      let s := analyzeTracksGo sqrtFn now rest up.2
      (l.toList ++ zi.1.toList ++ up.1.toList ++ r.toList ++ s.1, s.2)

/-- `SuspiciousActivityAnalyzer.analyze_frame` (activity_analyzer.py lines
507-563): run all detectors, append the emitted events to the bounded
(1000-entry) history, and return them. -/
def analyze_frame (sqrtFn : ℚ → ℚ) (a : Analyzer) (detections : List Detection)
    (tracks : List (ℕ × TrackState)) (now : ℚ) :
    List SuspiciousActivity × Analyzer :=
  let s1 := analyzeTracksGo sqrtFn now tracks a
  let weaponActs := detect_weapon s1.2 detections tracks now
  let s2 := detect_abandoned_objects s1.2 detections now
  let acts := s1.1 ++ weaponActs ++ s2.1
  let hist := s2.2.activityHistory ++ acts
  let hist' := if hist.length > 1000 then hist.drop (hist.length - 1000) else hist
  (acts, { s2.2 with activityHistory := hist' })

/-! ## Alert manager (`surveillance/alert_manager.py`) -/

/-- The dictionary built by `AlertManager._create_alert_data`
(alert_manager.py lines 163-196) for a call without a frame (`frame=None`,
so no snapshot is saved).  The derived `datetime` display string of the
timestamp is not modelled. -/
structure AlertData where
  timestamp : ℚ
  activityType : String
  threatLevel : String
  trackId : ℤ
  description : String
  location : ℤ × ℤ
  zoneName : String
  confidence : ℚ
  evidence : List (String × EvidenceValue)
  snapshotPath : Option String
  cameraId : String
  alertId : String
deriving DecidableEq, Repr

/-- The `.value` string of a `ThreatLevel` member. -/
def ThreatLevel.value : ThreatLevel → String
  | .low => "low"
  | .medium => "medium"
  | .high => "high"
  | .critical => "critical"

/-- `AlertManager._create_alert_data` with `frame=None`. -/
def create_alert_data (act : SuspiciousActivity) : AlertData :=
  { timestamp := act.timestamp
    activityType := act.activityType.value
    threatLevel := act.threatLevel.value
    trackId := act.trackId
    description := act.description
    location := act.location
    zoneName := act.zoneName
    confidence := act.confidence
    evidence := act.evidence
    snapshotPath := none
    cameraId := "default"
    alertId := act.activityType.value ++ "_" ++ toString (pyInt act.timestamp)
      ++ "_" ++ toString act.trackId }

/-- The mutable state of an `AlertManager` instance that `process_activity`
touches (alert_manager.py lines 58-76): the cooldown table
`last_alert_times`, the work queue, and the statistics. -/
structure AlertManagerState where
  alertCooldown : ℚ
  lastAlertTimes : List (String × ℚ)
  alertQueue : List AlertData
  totalAlerts : ℕ
  lastAlertTime : ℚ
deriving Repr

/-- `AlertManager._is_in_cooldown` (alert_manager.py lines 146-161). -/
def is_in_cooldown (s : AlertManagerState) (act : SuspiciousActivity) : Bool :=
  match alookup act.activityType.value s.lastAlertTimes with
  | none => false
  | some t => decide (act.timestamp - t < s.alertCooldown)

/-- `AlertManager.process_activity` (alert_manager.py lines 114-144), called
without a frame: if the activity type is in cooldown nothing happens;
otherwise `last_alert_times[type]` is set to the activity's timestamp
immediately, the alert data is enqueued, and the statistics update
(`wallClock` is the `time.time()` read for `stats['last_alert_time']`). -/
def process_activity (s : AlertManagerState) (act : SuspiciousActivity)
    (wallClock : ℚ) : AlertManagerState :=
  if is_in_cooldown s act then s
  else
    { s with
      lastAlertTimes := astore act.activityType.value act.timestamp s.lastAlertTimes
      alertQueue := s.alertQueue ++ [create_alert_data act]
      totalAlerts := s.totalAlerts + 1
      lastAlertTime := wallClock }

/-- Sequential processing of a list of activities, each paired with the
wall-clock reading at processing time. -/
def process_activities (s : AlertManagerState) :
    List (SuspiciousActivity × ℚ) → AlertManagerState
  | [] => s
  | (act, wc) :: rest => process_activities (process_activity s act wc) rest

/-! ## Authorization memory (`multi_camera_surveillance.py`) -/

/-- One entry of `self.last_authorized_person[camera_name]`
(multi_camera_surveillance.py line 94): the authorized names last confirmed
on this camera, the wall-clock datetime of that confirmation, and the count
of frames since a face was last seen. -/
structure AuthMemory where
  names : List String
  timestamp : ℚ
  framesSinceSeen : ℕ
deriving DecidableEq, Repr

/-- The authorized-sighting branch of `process_frame_ai`
(multi_camera_surveillance.py lines 1091-1099): on a tick where at least one
authorized face is confirmed, the memory is overwritten with all authorized
names seen and `frames_since_seen` resets to 0. -/
def tick_authorized_seen (names : List String) (nowDt : ℚ)
    (_mem : Option AuthMemory) : Option AuthMemory :=
  some ⟨names, nowDt, 0⟩

/-- The "person detected but no face resolved" branch of `process_frame_ai`
(multi_camera_surveillance.py lines 1129-1170).  Returns the new memory for
this camera and the number of intruder alerts sent on this tick: with a
memory present, `frames_since_seen` increments; if it stays `≤
max_frames_without_face` no alert is sent, otherwise the memory is deleted
and one intruder alert (`person_name="hidden_face"`) is sent.  With no
memory, nothing happens. -/
def tick_person_no_face (maxFramesWithoutFace : ℕ) :
    Option AuthMemory → Option AuthMemory × ℕ
  | none => (none, 0)
  | some m =>
    let m' := { m with framesSinceSeen := m.framesSinceSeen + 1 }
    if m'.framesSinceSeen ≤ maxFramesWithoutFace then (some m', 0)
    else (none, 1)

/-- `n` consecutive "person present, no face" ticks, returning the final
memory and the total number of intruder alerts sent. -/
def run_no_face_ticks (maxFramesWithoutFace : ℕ) :
    ℕ → Option AuthMemory → Option AuthMemory × ℕ
  | 0, mem => (mem, 0)
  | n + 1, mem =>
    let s := tick_person_no_face maxFramesWithoutFace mem
    let r := run_no_face_ticks maxFramesWithoutFace n s.1
    (r.1, s.2 + r.2)

/-- Number of emitted activities of a given type. -/
def countType (acts : List SuspiciousActivity) (t : ActivityType) : ℕ :=
  acts.countP (fun a => decide (a.activityType = t))

/-- Number of emitted activities of a given type and threat level. -/
def countTypeLevel (acts : List SuspiciousActivity) (t : ActivityType)
    (lvl : ThreatLevel) : ℕ :=
  acts.countP (fun a => decide (a.activityType = t ∧ a.threatLevel = lvl))

/-! ## Theorems -/

/-- C1, counterexample.  The claim predicts that after an authorized
confirmation (memory set, `frames_since_seen = 0`), the 10th consecutive
"person present, no face" tick raises exactly one intruder alert and clears
the memory.  In the code (`max_frames_without_face = 10`,
multi_camera_surveillance.py lines 95 and 1134-1147) the counter is
incremented before the `<=` comparison, so the 10th such tick still has
`frames_since_seen = 10 ≤ 10`: zero alerts over the first ten ticks and the
memory is still set. -/
theorem grace_period_counterexample :
    run_no_face_ticks 10 10 (some ⟨["alice"], 0, 0⟩) =
      (some ⟨["alice"], 0, 10⟩, 0) := by
  decide

/-- As long as the incremented counter stays within the limit, each tick
just increments `frames_since_seen` and sends no alert. -/
lemma run_no_face_ticks_le (maxF : ℕ) (names : List String) (tstamp : ℚ) :
    ∀ (k fs : ℕ), fs + k ≤ maxF →
      run_no_face_ticks maxF k (some ⟨names, tstamp, fs⟩) =
        (some ⟨names, tstamp, fs + k⟩, 0) := by
  intro k
  induction k with
  | zero => intro fs _; simp [run_no_face_ticks]
  | succ n ih =>
    intro fs h
    have h1 : fs + 1 ≤ maxF := by omega
    have h2 : (fs + 1) + n ≤ maxF := by omega
    simp only [run_no_face_ticks, tick_person_no_face, if_pos h1]
    rw [ih (fs + 1) h2]
    simp [Nat.add_assoc, Nat.add_comm 1 n]

/-- C1, amended.  Starting from a tick where an authorized face is confirmed
(memory set with the names seen, `frames_since_seen = 0`), ten subsequent
consecutive "person present, no face" ticks produce zero intruder alerts and
leave the memory set; the eleventh such tick produces exactly one intruder
alert and clears the per-camera authorization memory (with the default
`max_frames_without_face = 10`). -/
theorem grace_period_amended (names : List String) (tstamp : ℚ) :
    run_no_face_ticks 10 10 (some ⟨names, tstamp, 0⟩) =
      (some ⟨names, tstamp, 10⟩, 0) ∧
    run_no_face_ticks 10 11 (some ⟨names, tstamp, 0⟩) = (none, 1) := by
  have h10 := run_no_face_ticks_le 10 names tstamp 10 0 (by norm_num)
  refine ⟨h10, ?_⟩
  have h10b := run_no_face_ticks_le 10 names tstamp 9 1 (by norm_num)
  simp only [show (11 : ℕ) = 9 + 1 + 1 from rfl, run_no_face_ticks, tick_person_no_face]
  norm_num at h10b ⊢

/-- C4.  For every tracker state, tracker oracle, detection list and time,
the map returned by `PersonTracker.update` contains exactly the stored
tracks whose `frame_count` is at least `min_track_length`; in particular a
track with `frame_count < min_track_length` never appears in it. -/
theorem confirmed_track_filter_spec (tr : PersonTracker) (oracle : TrackerOracle)
    (initOk : ℕ → Bool) (dets : List Detection) (now : ℚ) (p : ℕ × TrackState) :
    p ∈ (PersonTracker.update tr oracle initOk dets now).2 ↔
      p ∈ (PersonTracker.update tr oracle initOk dets now).1.tracks ∧
        p.2.frameCount ≥ tr.minTrackLength := by
  simp [PersonTracker.update, List.mem_filter]

/-- The loop body of `point_in_polygon` never reads `xinters` before it is
assigned: whenever the read is reached, the guard `y > min(p1y, p2y) ∧ y ≤
max(p1y, p2y)` forces `p1y ≠ p2y`, so `xinters` was assigned in this very
iteration. -/
lemma pipStep_isSome (x y : ℚ) (st : Bool × Option ℚ × (ℚ × ℚ)) (p2 : ℚ × ℚ) :
    (pipStep x y st p2).isSome := by
  obtain ⟨inside, xinters, p1x, p1y⟩ := st
  simp only [pipStep]
  by_cases hg : y > min p1y p2.2 ∧ y ≤ max p1y p2.2 ∧ x ≤ max p1x p2.1
  · rw [if_pos hg]
    by_cases hy : p1y ≠ p2.2
    · rw [if_pos hy]
      by_cases hx : p1x = p2.1
      · rw [if_pos hx]; simp
      · rw [if_neg hx]; simp
    · push_neg at hy
      exfalso
      rw [hy] at hg
      simp only [min_self, max_self] at hg
      linarith [hg.1, hg.2.1]
  · rw [if_neg hg]; simp

/-- Each fold step of `point_in_polygon` preserves definedness when the
polygon is nonempty (the cyclic index `i % n` is always in range). -/
lemma pipFold_isSome (x y : ℚ) (polygon : List (ℚ × ℚ)) (hp : polygon ≠ [])
    (acc : Option (Bool × Option ℚ × (ℚ × ℚ))) (h : acc.isSome) (i : ℕ) :
    (pipFold x y polygon acc i).isSome := by
  obtain ⟨st, rfl⟩ := Option.isSome_iff_exists.mp h
  have hlen : 0 < polygon.length := List.length_pos.mpr hp
  have hidx : i % polygon.length < polygon.length := Nat.mod_lt _ hlen
  simp only [pipFold, Option.bind_some]
  rw [List.get?_eq_get hidx]
  exact pipStep_isSome x y st _

lemma pipFold_foldl_isSome (x y : ℚ) (polygon : List (ℚ × ℚ)) (hp : polygon ≠ []) :
    ∀ (l : List ℕ) (acc : Option (Bool × Option ℚ × (ℚ × ℚ))), acc.isSome →
      (l.foldl (pipFold x y polygon) acc).isSome := by
  intro l
  induction l with
  | nil => intro acc h; exact h
  | cons i rest ih =>
    intro acc h
    exact ih _ (pipFold_isSome x y polygon hp acc h i)

/-- C9.  `point_in_polygon` on the square `[(0,0),(10,0),(10,10),(0,10)]`
returns inside for `(5,5)` and outside for `(15,5)`; and for every polygon
with at least one vertex and every integer point it returns a boolean
without raising (the `none` cases modelling Python's IndexError on an empty
polygon and NameError on an unassigned `xinters` are unreachable). -/
theorem point_in_polygon_spec :
    point_in_polygon ((5 : ℚ), (5 : ℚ))
      [((0 : ℚ), (0 : ℚ)), (10, 0), (10, 10), (0, 10)] = some true ∧
    point_in_polygon ((15 : ℚ), (5 : ℚ))
      [((0 : ℚ), (0 : ℚ)), (10, 0), (10, 10), (0, 10)] = some false ∧
    ∀ (polygon : List (ℚ × ℚ)) (p : ℤ × ℤ), polygon ≠ [] →
      ∃ b, point_in_polygon ((p.1 : ℚ), (p.2 : ℚ)) polygon = some b := by
  refine ⟨by decide, by decide, ?_⟩
  intro polygon p hp
  match hpoly : polygon, hp with
  | p0 :: rest, _ =>
    have h := pipFold_foldl_isSome (p.1 : ℚ) (p.2 : ℚ) (p0 :: rest) (by simp)
      (List.range ((p0 :: rest).length + 1)) (some (false, none, p0)) (by simp)
    obtain ⟨st, hst⟩ := Option.isSome_iff_exists.mp h
    refine ⟨st.1, ?_⟩
    simp only [point_in_polygon, List.length_cons] at hst ⊢
    rw [hst]
    rfl

/-- `_calculate_iou` is symmetric in its two boxes: every subexpression
(`max`/`min` corner, intersection, area sum) is. -/
lemma calculate_iou_comm (b1 b2 : Box) :
    calculate_iou b1 b2 = calculate_iou b2 b1 := by
  simp only [calculate_iou]
  rw [max_comm b2.x1 b1.x1, max_comm b2.y1 b1.y1, min_comm b2.x2 b1.x2,
    min_comm b2.y2 b1.y2,
    add_comm ((b2.x2 - b2.x1) * (b2.y2 - b2.y1)) ((b1.x2 - b1.x1) * (b1.y2 - b1.y1))]

/-- C10.  For bounding boxes with `x1 ≤ x2` and `y1 ≤ y2`,
`_calculate_iou` is symmetric and its value lies in `[0, 1]`. -/
theorem iou_symm_bounds (b1 b2 : Box) (h1x : b1.x1 ≤ b1.x2) (h1y : b1.y1 ≤ b1.y2)
    (h2x : b2.x1 ≤ b2.x2) (h2y : b2.y1 ≤ b2.y2) :
    calculate_iou b1 b2 = calculate_iou b2 b1 ∧
    0 ≤ calculate_iou b1 b2 ∧ calculate_iou b1 b2 ≤ 1 := by
  refine ⟨calculate_iou_comm b1 b2, ?_⟩
  · simp only [calculate_iou]
    split_ifs with hg hu
    · norm_num
    · norm_num
    · push_neg at hg hu
      obtain ⟨hgx, hgy⟩ := hg
      have hix : (0 : ℤ) ≤ min b1.x2 b2.x2 - max b1.x1 b2.x1 := by linarith
      have hiy : (0 : ℤ) ≤ min b1.y2 b2.y2 - max b1.y1 b2.y1 := by linarith
      have hinter : (0 : ℤ) ≤ (min b1.x2 b2.x2 - max b1.x1 b2.x1) *
          (min b1.y2 b2.y2 - max b1.y1 b2.y1) := mul_nonneg hix hiy
      have ha1 : (min b1.x2 b2.x2 - max b1.x1 b2.x1) *
          (min b1.y2 b2.y2 - max b1.y1 b2.y1) ≤ (b1.x2 - b1.x1) * (b1.y2 - b1.y1) := by
        apply mul_le_mul _ _ hiy _
        · have := le_max_left b1.x1 b2.x1
          have := min_le_left b1.x2 b2.x2
          linarith
        · have := le_max_left b1.y1 b2.y1
          have := min_le_left b1.y2 b2.y2
          linarith
        · linarith
      have ha2 : (min b1.x2 b2.x2 - max b1.x1 b2.x1) *
          (min b1.y2 b2.y2 - max b1.y1 b2.y1) ≤ (b2.x2 - b2.x1) * (b2.y2 - b2.y1) := by
        apply mul_le_mul _ _ hiy _
        · have := le_max_right b1.x1 b2.x1
          have := min_le_right b1.x2 b2.x2
          linarith
        · have := le_max_right b1.y1 b2.y1
          have := min_le_right b1.y2 b2.y2
          linarith
        · linarith
      constructor
      · apply div_nonneg
        · exact_mod_cast hinter
        · have : (0 : ℤ) ≤ (b1.x2 - b1.x1) * (b1.y2 - b1.y1) +
              (b2.x2 - b2.x1) * (b2.y2 - b2.y1) -
              (min b1.x2 b2.x2 - max b1.x1 b2.x1) *
              (min b1.y2 b2.y2 - max b1.y1 b2.y1) := by linarith
          exact_mod_cast this
      · rw [div_le_one (by exact_mod_cast hu)]
        have : (min b1.x2 b2.x2 - max b1.x1 b2.x1) *
            (min b1.y2 b2.y2 - max b1.y1 b2.y1) ≤
            (b1.x2 - b1.x1) * (b1.y2 - b1.y1) +
            (b2.x2 - b2.x1) * (b2.y2 - b2.y1) -
            (min b1.x2 b2.x2 - max b1.x1 b2.x1) *
            (min b1.y2 b2.y2 - max b1.y1 b2.y1) := by linarith
        exact_mod_cast this

/-- Witness for `iou_symm_bounds` at two concrete overlapping boxes. -/
theorem iou_symm_bounds_witness :
    calculate_iou ⟨0, 0, 10, 10⟩ ⟨5, 5, 15, 15⟩ =
      calculate_iou ⟨5, 5, 15, 15⟩ ⟨0, 0, 10, 10⟩ ∧
    0 ≤ calculate_iou ⟨0, 0, 10, 10⟩ ⟨5, 5, 15, 15⟩ ∧
    calculate_iou ⟨0, 0, 10, 10⟩ ⟨5, 5, 15, 15⟩ ≤ 1 :=
  iou_symm_bounds ⟨0, 0, 10, 10⟩ ⟨5, 5, 15, 15⟩ (by decide) (by decide)
    (by decide) (by decide)

/-- Witness for `point_in_polygon_spec`'s universally quantified totality
part, at a one-vertex polygon. -/
theorem point_in_polygon_spec_witness :
    ∃ b, point_in_polygon ((1 : ℚ), (2 : ℚ)) [((0 : ℚ), (0 : ℚ))] = some b :=
  point_in_polygon_spec.2.2 [((0 : ℚ), (0 : ℚ))] (1, 2) (by simp)

lemma alookup_astore_self {κ α : Type} [DecidableEq κ] (k : κ) (v : α)
    (l : List (κ × α)) : alookup k (astore k v l) = some v := by
  induction l with
  | nil => simp [astore, alookup]
  | cons p rest ih =>
    by_cases h : k = p.1
    · simp [astore, alookup, h]
    · simp [astore, alookup, h, ih]

lemma alookup_astore_other {κ α : Type} [DecidableEq κ] (k k' : κ) (v : α)
    (l : List (κ × α)) (h : k ≠ k') : alookup k (astore k' v l) = alookup k l := by
  induction l with
  | nil => simp [astore, alookup, h]
  | cons p rest ih =>
    by_cases h' : k' = p.1
    · subst h'; simp [astore, alookup, h]
    · by_cases h'' : k = p.1 <;> simp [astore, alookup, h', h'', ih]

/-- A call in cooldown leaves the manager state untouched. -/
lemma process_activity_of_cooldown (s : AlertManagerState) (act : SuspiciousActivity)
    (wc : ℚ) (h : is_in_cooldown s act = true) : process_activity s act wc = s := by
  unfold process_activity; rw [if_pos h]

/-- A call out of cooldown updates the dispatch time, enqueues the alert
data and bumps the statistics. -/
lemma process_activity_of_not_cooldown (s : AlertManagerState)
    (act : SuspiciousActivity) (wc : ℚ) (h : is_in_cooldown s act = false) :
    process_activity s act wc =
      { s with
        lastAlertTimes := astore act.activityType.value act.timestamp s.lastAlertTimes
        alertQueue := s.alertQueue ++ [create_alert_data act]
        totalAlerts := s.totalAlerts + 1
        lastAlertTime := wc } := by
  unfold process_activity
  rw [if_neg (by simp [h])]

/-- `process_activity` never changes the cooldown period. -/
lemma process_activity_cooldown (s : AlertManagerState) (act : SuspiciousActivity)
    (wc : ℚ) : (process_activity s act wc).alertCooldown = s.alertCooldown := by
  unfold process_activity
  split_ifs <;> rfl

lemma process_activities_cooldown (l : List (SuspiciousActivity × ℚ)) :
    ∀ (s : AlertManagerState),
      (process_activities s l).alertCooldown = s.alertCooldown := by
  induction l with
  | nil => intro s; rfl
  | cons p rest ih =>
    intro s
    simp only [process_activities]
    rw [ih, process_activity_cooldown]

/-- Once `last_alert_times[ty]` is set, any amount of further processing
only moves it forward in time (an accepted same-type activity must be at
least one cooldown later; other types do not touch the entry). -/
lemma process_activities_last_mono (l : List (SuspiciousActivity × ℚ)) :
    ∀ (s : AlertManagerState) (ty : String) (t : ℚ), 0 ≤ s.alertCooldown →
      alookup ty s.lastAlertTimes = some t →
      ∃ t', t ≤ t' ∧ alookup ty (process_activities s l).lastAlertTimes = some t' := by
  induction l with
  | nil => intro s ty t _ h; exact ⟨t, le_refl t, h⟩
  | cons p rest ih =>
    intro s ty t hcd h
    simp only [process_activities]
    have hcd' : 0 ≤ (process_activity s p.1 p.2).alertCooldown := by
      rw [process_activity_cooldown]; exact hcd
    by_cases hc : is_in_cooldown s p.1 = true
    · rw [process_activity_of_cooldown s p.1 p.2 hc]
      exact ih s ty t hcd h
    · have hc' : is_in_cooldown s p.1 = false := Bool.eq_false_iff.mpr hc
      have hstep : (process_activity s p.1 p.2).lastAlertTimes =
          astore p.1.activityType.value p.1.timestamp s.lastAlertTimes := by
        rw [process_activity_of_not_cooldown s p.1 p.2 hc']
      by_cases hty : ty = p.1.activityType.value
      · have hts : t + s.alertCooldown ≤ p.1.timestamp := by
          unfold is_in_cooldown at hc'
          rw [← hty, h] at hc'
          simp only [decide_eq_false_iff_not, not_lt] at hc'
          linarith
        have h' : alookup ty ((process_activity s p.1 p.2).lastAlertTimes) =
            some p.1.timestamp := by
          rw [hstep, hty]; exact alookup_astore_self _ _ _
        obtain ⟨t', ht', hfin⟩ := ih (process_activity s p.1 p.2) ty p.1.timestamp hcd' h'
        exact ⟨t', by linarith, hfin⟩
      · have h' : alookup ty ((process_activity s p.1 p.2).lastAlertTimes) = some t := by
          rw [hstep, alookup_astore_other _ _ _ _ hty]; exact h
        exact ih (process_activity s p.1 p.2) ty t hcd' h'

/-- C2.  If `process_activity` accepts an activity (enqueuing it and setting
`last_alert_times[type]` to its timestamp immediately), then: any later
same-type activity whose timestamp is within the cooldown period of that
dispatch is suppressed (the state is left untouched), even after arbitrary
intermediate processing; a same-type activity at least one cooldown period
later is accepted again and enqueued; and two same-type activities within
the cooldown enqueue exactly one alert. -/
theorem alert_cooldown_spec (s : AlertManagerState) (act : SuspiciousActivity)
    (wc : ℚ) (hcd : 0 ≤ s.alertCooldown) (hacc : is_in_cooldown s act = false) :
    (process_activity s act wc).alertQueue = s.alertQueue ++ [create_alert_data act] ∧
    (∀ (mid : List (SuspiciousActivity × ℚ)) (act2 : SuspiciousActivity) (wc2 : ℚ),
      act2.activityType = act.activityType →
      act2.timestamp - act.timestamp < s.alertCooldown →
      process_activity (process_activities (process_activity s act wc) mid) act2 wc2 =
        process_activities (process_activity s act wc) mid) ∧
    (∀ (act3 : SuspiciousActivity) (wc3 : ℚ),
      act3.activityType = act.activityType →
      act3.timestamp - act.timestamp ≥ s.alertCooldown →
      (process_activity (process_activity s act wc) act3 wc3).alertQueue =
        (process_activity s act wc).alertQueue ++ [create_alert_data act3]) ∧
    (∀ (act2 : SuspiciousActivity) (wc2 : ℚ),
      act2.activityType = act.activityType →
      act2.timestamp - act.timestamp < s.alertCooldown →
      (process_activity (process_activity s act wc) act2 wc2).alertQueue.length =
        s.alertQueue.length + 1) := by
  have hstep := process_activity_of_not_cooldown s act wc hacc
  have hlast : alookup act.activityType.value (process_activity s act wc).lastAlertTimes =
      some act.timestamp := by
    rw [hstep]; exact alookup_astore_self _ _ _
  have hcd1 : 0 ≤ (process_activity s act wc).alertCooldown := by
    rw [process_activity_cooldown]; exact hcd
  refine ⟨by rw [hstep], ?_, ?_, ?_⟩
  · intro mid act2 wc2 hty ht
    obtain ⟨t', ht', hfin⟩ :=
      process_activities_last_mono mid (process_activity s act wc)
        act.activityType.value act.timestamp hcd1 hlast
    have hty2 : act2.activityType.value = act.activityType.value := by rw [hty]
    have hcool : is_in_cooldown (process_activities (process_activity s act wc) mid)
        act2 = true := by
      unfold is_in_cooldown
      rw [hty2, hfin]
      simp only [decide_eq_true_eq]
      rw [process_activities_cooldown, process_activity_cooldown]
      linarith
    exact process_activity_of_cooldown _ _ _ hcool
  · intro act3 wc3 hty ht
    have hty3 : act3.activityType.value = act.activityType.value := by rw [hty]
    have hcool : is_in_cooldown (process_activity s act wc) act3 = false := by
      unfold is_in_cooldown
      rw [hty3, hlast]
      simp only [decide_eq_false_iff_not]
      rw [process_activity_cooldown]
      linarith
    rw [process_activity_of_not_cooldown _ _ _ hcool]
  · intro act2 wc2 hty ht
    have hty2 : act2.activityType.value = act.activityType.value := by rw [hty]
    have hcool : is_in_cooldown (process_activity s act wc) act2 = true := by
      unfold is_in_cooldown
      rw [hty2, hlast]
      simp only [decide_eq_true_eq]
      rw [process_activity_cooldown]
      linarith
    rw [process_activity_of_cooldown _ _ _ hcool, hstep]
    simp

/-- Witness for `alert_cooldown_spec` at a fresh manager (default 300 s
cooldown) and a concrete loitering activity. -/
theorem alert_cooldown_spec_witness :
    (process_activity ⟨300, [], [], 0, 0⟩
      ⟨ActivityType.loitering, ThreatLevel.medium, 1, "d", 50, (0, 0), "z", 1, []⟩
      50).alertQueue =
      [] ++ [create_alert_data
        ⟨ActivityType.loitering, ThreatLevel.medium, 1, "d", 50, (0, 0), "z", 1, []⟩] :=
  (alert_cooldown_spec ⟨300, [], [], 0, 0⟩
    ⟨ActivityType.loitering, ThreatLevel.medium, 1, "d", 50, (0, 0), "z", 1, []⟩
    50 (by norm_num) (by rfl)).1

/-- A track surviving Step 1 of `update` had a successful per-object
tracker on this frame. -/
lemma advanceTracks_mem (oracle : TrackerOracle) (now : ℚ) :
    ∀ (l : List (ℕ × TrackState)) (tid : ℕ) (ts' : TrackState),
      (tid, ts') ∈ advanceTracks oracle now l →
      (oracle tid).isSome ∧ ∃ ts, (tid, ts) ∈ l := by
  intro l
  induction l with
  | nil => intro tid ts' h; simp [advanceTracks] at h
  | cons p rest ih =>
    intro tid ts' h
    obtain ⟨ptid, pts⟩ := p
    simp only [advanceTracks] at h
    cases horacle : oracle ptid with
    | none =>
      rw [horacle] at h
      obtain ⟨hs, ts, hts⟩ := ih tid ts' h
      exact ⟨hs, ts, List.mem_cons_of_mem _ hts⟩
    | some q =>
      obtain ⟨x, y, w, hgt⟩ := q
      rw [horacle] at h
      simp only [List.mem_cons] at h
      rcases h with h | h
      · have : tid = ptid := by
          have := congrArg Prod.fst h
          simpa using this
        subst this
        exact ⟨by rw [horacle]; rfl, pts, List.mem_cons_self _ _⟩
      · obtain ⟨hs, ts, hts⟩ := ih tid ts' h
        exact ⟨hs, ts, List.mem_cons_of_mem _ hts⟩

/-- Updating matched tracks' detection info does not change the key list. -/
lemma applyMatches_map_fst (dets : List Detection) (m : List (ℕ × ℕ)) :
    ∀ (l : List (ℕ × TrackState)),
      (applyMatches dets m l).map Prod.fst = l.map Prod.fst := by
  intro l
  induction l with
  | nil => rfl
  | cons p rest ih =>
    obtain ⟨ptid, pts⟩ := p
    simp only [applyMatches, List.map_cons, ih]

/-- Every track present after Step 3 of `update` either was present before
new-track creation or is a freshly allocated one (id at least the incoming
`next_track_id`). -/
lemma createNewTracks_mem (initOk : ℕ → Bool) (maxT : ℕ) (now : ℚ)
    (mi : List ℕ) :
    ∀ (dets : List Detection) (idx nextId : ℕ) (acc : List (ℕ × TrackState))
      (tid : ℕ) (ts : TrackState),
      (tid, ts) ∈ (createNewTracks initOk maxT now mi dets idx nextId acc).2 →
      (tid, ts) ∈ acc ∨ nextId ≤ tid := by
  intro dets
  induction dets with
  | nil => intro idx nextId acc tid ts h; exact Or.inl h
  | cons det rest ih =>
    intro idx nextId acc tid ts h
    simp only [createNewTracks] at h
    split_ifs at h with h1 h2
    · rcases ih _ _ _ _ _ h with hmem | hle
      · rcases List.mem_append.mp hmem with hacc | hnew
        · exact Or.inl hacc
        · have : tid = nextId := by
            have := congrArg Prod.fst (List.mem_singleton.mp hnew)
            simpa using this
          exact Or.inr (le_of_eq this.symm)
      · exact Or.inr (by omega)
    · exact ih _ _ _ _ _ h
    · exact ih _ _ _ _ _ h

/-- C6.  After every call to `PersonTracker.update` at time `now` (with
fresh track ids, as maintained by `_create_new_track`), the store contains
no track whose per-object tracker failed in that call and no track with
`now - last_update > track_timeout`; such tracks are also absent from the
returned map. -/
theorem track_eviction_spec (tr : PersonTracker) (oracle : TrackerOracle)
    (initOk : ℕ → Bool) (dets : List Detection) (now : ℚ)
    (hfresh : ∀ tid ts, (tid, ts) ∈ tr.tracks → tid < tr.nextTrackId) :
    (∀ tid ts, (tid, ts) ∈ (PersonTracker.update tr oracle initOk dets now).1.tracks →
      ¬ (now - ts.lastUpdate > tr.trackTimeout)) ∧
    (∀ tid ts, (tid, ts) ∈ tr.tracks → oracle tid = none →
      ∀ ts', (tid, ts') ∉ (PersonTracker.update tr oracle initOk dets now).1.tracks) ∧
    (∀ tid ts, (tid, ts) ∈ (PersonTracker.update tr oracle initOk dets now).2 →
      ¬ (now - ts.lastUpdate > tr.trackTimeout)) := by
  have hcleaned : ∀ tid ts,
      (tid, ts) ∈ (PersonTracker.update tr oracle initOk dets now).1.tracks →
      ¬ (now - ts.lastUpdate > tr.trackTimeout) := by
    intro tid ts h
    simp only [PersonTracker.update, cleanup_old_tracks, List.mem_filter,
      decide_eq_true_eq] at h
    exact h.2
  refine ⟨hcleaned, ?_, ?_⟩
  · intro tid ts hmem horacle ts' hmem'
    simp only [PersonTracker.update, cleanup_old_tracks, List.mem_filter] at hmem'
    have hcreated := createNewTracks_mem initOk tr.maxTracks now _ dets 0
      tr.nextTrackId _ tid ts' hmem'.1
    rcases hcreated with hacc | hge
    · have hkey : tid ∈ (applyMatches dets _ (advanceTracks oracle now tr.tracks)).map
          Prod.fst := List.mem_map_of_mem Prod.fst hacc
      rw [applyMatches_map_fst] at hkey
      obtain ⟨⟨tid2, ts2⟩, hmem2, hfst⟩ := List.mem_map.mp hkey
      simp only at hfst
      obtain ⟨hsome, _⟩ := advanceTracks_mem oracle now tr.tracks tid2 ts2 hmem2
      rw [hfst, horacle] at hsome
      simp at hsome
    · exact absurd (hfresh tid ts hmem) (by omega)
  · intro tid ts h
    simp only [PersonTracker.update] at h ⊢
    rw [List.mem_filter] at h
    exact hcleaned tid ts (by simpa [PersonTracker.update] using h.1)

/-- A one-track store whose per-object tracker fails on this frame. -/
def evictTrackW : TrackState :=
  ⟨1, ⟨0, 0, 10, 10⟩, (5, 5), ⟨⟨0, 0, 10, 10⟩, 1, 0, "person"⟩, 1, 0, 0, 3, [],
    "unknown", AuthStatus.pending⟩

/-- Witness for `track_eviction_spec`: the failed track is gone from the
store afterwards. -/
theorem track_eviction_spec_witness :
    (1, evictTrackW) ∉
      (PersonTracker.update ⟨50, 5, 5, 1/2, 2, [(1, evictTrackW)]⟩
        (fun _ => none) (fun _ => false) [] 7).1.tracks :=
  (track_eviction_spec ⟨50, 5, 5, 1/2, 2, [(1, evictTrackW)]⟩
    (fun _ => none) (fun _ => false) [] 7
    (by
      intro tid ts h
      simp only [List.mem_singleton, Prod.mk.injEq] at h
      rcases h with ⟨h1, _⟩
      subst h1
      norm_num)).2.1
    1 evictTrackW (List.mem_singleton.mpr rfl) rfl evictTrackW

lemma distSq_self (p : ℤ × ℤ) : distSq p p = 0 := by
  simp [distSq]

/-- The within-50px check of `detect_loitering` over the tail of the window
equals the claim's "every sample within 50 px of the first sample". -/
lemma all_within_iff (s : PosSample) (rest : List PosSample) :
    (rest.all (fun p => ¬ (distSq p.center s.center > 50 ^ 2)) = true) ↔
    (∀ p ∈ s :: rest, distSq p.center s.center ≤ 50 ^ 2) := by
  rw [List.all_eq_true]
  simp only [decide_eq_true_eq, not_lt, List.mem_cons]
  constructor
  · rintro h p (rfl | hp)
    · rw [distSq_self]; norm_num
    · exact h p hp
  · intro h p hp
    exact h p (Or.inr hp)

/-- Whatever `detect_loitering` emits is a `LOITERING` event of medium
threat. -/
lemma detect_loitering_shape (a : Analyzer) (ts : TrackState) (now : ℚ)
    (act : SuspiciousActivity) (h : detect_loitering a ts now = some act) :
    act.activityType = ActivityType.loitering ∧
      act.threatLevel = ThreatLevel.medium := by
  simp only [detect_loitering] at h
  split at h
  · exact absurd h (by simp)
  · split_ifs at h
    split at h
    · exact absurd h (by simp)
    · split_ifs at h
      obtain rfl := Option.some.inj h
      exact ⟨rfl, rfl⟩

/-- C7.  For a confirmed track (`frame_count ≥ 10`) and a loitering
threshold of at least one second (default 30), `detect_loitering` emits an
event iff the track's center is in a zone whose activity types include
loitering, every `position_history` sample of the trailing
`loitering_threshold` window lies within 50 px of the window's first sample,
and the window holds at least `loitering_threshold × 2` samples; the emitted
event is always `LOITERING` with threat level medium. -/
theorem loitering_spec (a : Analyzer) (ts : TrackState) (now : ℚ)
    (h10 : ts.frameCount ≥ 10) (hthr : 1 ≤ a.loiteringThreshold) :
    ((detect_loitering a ts now).isSome ↔
      ∃ z, get_zone_for_point a.zones ts.center = some z ∧
        ActivityType.loitering ∈ z.activityTypes ∧
        (∀ p ∈ ts.positionHistory.filter
            (fun h => now - h.timestamp ≤ a.loiteringThreshold),
          ∀ q ∈ (ts.positionHistory.filter
            (fun h => now - h.timestamp ≤ a.loiteringThreshold)).head?,
            distSq p.center q.center ≤ 50 ^ 2) ∧
        ((ts.positionHistory.filter
            (fun h => now - h.timestamp ≤ a.loiteringThreshold)).length : ℚ) ≥
          a.loiteringThreshold * 2) ∧
    (∀ act, detect_loitering a ts now = some act →
      act.activityType = ActivityType.loitering ∧
        act.threatLevel = ThreatLevel.medium) := by
  refine ⟨?_, fun act h => detect_loitering_shape a ts now act h⟩
  simp only [detect_loitering]
  cases hz : get_zone_for_point a.zones ts.center with
  | none => simp
  | some zone =>
    dsimp only
    by_cases hmem : ActivityType.loitering ∈ zone.activityTypes
    · rw [if_neg (not_not_intro hmem)]
      rcases hrec : ts.positionHistory.filter
          (fun h => now - h.timestamp ≤ a.loiteringThreshold) with _ | ⟨startPos, restPos⟩
      · -- empty window: both sides false (the count is below the floor)
        rw [hrec]
        have hfloor : ¬ ((([] : List PosSample).length : ℚ) ≥ a.loiteringThreshold * 2) := by
          simp only [List.length_nil, Nat.cast_zero]
          push_neg; linarith
        simp [hfloor]
        intro _
        linarith
      · rw [hrec]
        dsimp only
        by_cases hlen : ((startPos :: restPos).length : ℚ) ≥ a.loiteringThreshold * 2
        · have hlen2 : ¬ ((startPos :: restPos).length < 2) := by
            push_neg
            have h2 : (2 : ℚ) ≤ ((startPos :: restPos).length : ℚ) := by linarith
            exact_mod_cast h2
          rw [if_neg hlen2]
          by_cases hall : restPos.all
              (fun p => ¬ (distSq p.center startPos.center > 50 ^ 2)) = true
          · have hwithin := (all_within_iff startPos restPos).mp hall
            rw [if_pos (And.intro hall hlen)]
            simp only [Option.isSome_some, true_iff]
            refine ⟨zone, rfl, hmem, ?_, hlen⟩
            intro p hp q hq
            simp only [List.head?_cons, Option.mem_def, Option.some.injEq] at hq
            rw [← hq]
            exact hwithin p hp
          · have hcond : ¬ ((restPos.all
                (fun p => ¬ (distSq p.center startPos.center > 50 ^ 2)) = true) ∧
                ((startPos :: restPos).length : ℚ) ≥ a.loiteringThreshold * 2) := by
              intro hc; exact hall hc.1
            rw [if_neg hcond]
            simp only [Option.isSome_none, Bool.false_eq_true, false_iff]
            rintro ⟨z, hzz, -, hwith, -⟩
            apply hall
            rw [all_within_iff]
            intro p hp
            exact hwith p hp startPos (by simp)
        · -- count below the floor: both sides false
          by_cases hlen2 : (startPos :: restPos).length < 2
          · rw [if_pos hlen2]
            simp only [Option.isSome_none, Bool.false_eq_true, false_iff]
            rintro ⟨z, -, -, -, hl⟩
            exact hlen hl
          · rw [if_neg hlen2,
              if_neg (fun hc => hlen hc.2 :
                ¬ ((restPos.all
                  (fun p => ¬ (distSq p.center startPos.center > 50 ^ 2)) = true) ∧
                  ((startPos :: restPos).length : ℚ) ≥ a.loiteringThreshold * 2))]
            simp only [Option.isSome_none, Bool.false_eq_true, false_iff]
            rintro ⟨z, -, -, -, hl⟩
            exact hlen hl
    · rw [if_pos hmem]
      simp only [Option.isSome_none, Bool.false_eq_true, false_iff]
      rintro ⟨z, hzz, hm, -, -⟩
      have : z = zone := by
        simp only [Option.some.injEq] at hzz
        exact hzz.symm
      subst this
      exact hmem hm

/-- A concrete monitored zone, analyzer and confirmed track used to witness
the analyzer theorems. -/
def loiterZoneW : DetectionZone :=
  ⟨"Yard", [(0, 0), (100, 0), (100, 100), (0, 100)], "monitored",
    [ActivityType.loitering]⟩

def loiterAnalyzerW : Analyzer :=
  ⟨30, 60, 5, 5, [loiterZoneW], [], [], [], []⟩

def loiterTrackW : TrackState :=
  ⟨7, ⟨25, 25, 75, 75⟩, (50, 50), ⟨⟨25, 25, 75, 75⟩, 9/10, 0, "person"⟩, 9/10,
    0, 0, 10, [], "unknown", AuthStatus.pending⟩

/-- Witness for `loitering_spec` at a concrete analyzer and track. -/
theorem loitering_spec_witness :
    ((detect_loitering loiterAnalyzerW loiterTrackW 100).isSome ↔
      ∃ z, get_zone_for_point loiterAnalyzerW.zones loiterTrackW.center = some z ∧
        ActivityType.loitering ∈ z.activityTypes ∧
        (∀ p ∈ loiterTrackW.positionHistory.filter
            (fun h => 100 - h.timestamp ≤ loiterAnalyzerW.loiteringThreshold),
          ∀ q ∈ (loiterTrackW.positionHistory.filter
            (fun h => 100 - h.timestamp ≤ loiterAnalyzerW.loiteringThreshold)).head?,
            distSq p.center q.center ≤ 50 ^ 2) ∧
        ((loiterTrackW.positionHistory.filter
            (fun h => 100 - h.timestamp ≤ loiterAnalyzerW.loiteringThreshold)).length : ℚ) ≥
          loiterAnalyzerW.loiteringThreshold * 2) ∧
    (∀ act, detect_loitering loiterAnalyzerW loiterTrackW 100 = some act →
      act.activityType = ActivityType.loitering ∧
        act.threatLevel = ThreatLevel.medium) :=
  loitering_spec loiterAnalyzerW loiterTrackW 100 (by decide) (by decide)

lemma alookup_eq_none_of_not_mem_keys {κ α : Type} [DecidableEq κ] (k : κ)
    (l : List (κ × α)) (h : k ∉ l.map Prod.fst) : alookup k l = none := by
  induction l with
  | nil => rfl
  | cons q rest ih =>
    obtain ⟨k', v'⟩ := q
    rw [List.map_cons, List.mem_cons] at h
    push_neg at h
    simp only [alookup, if_neg h.1]
    exact ih h.2

lemma alookup_filter_none {κ α : Type} [DecidableEq κ] (k : κ)
    (p : κ × α → Bool) (l : List (κ × α)) (h : alookup k l = none) :
    alookup k (l.filter p) = none := by
  induction l with
  | nil => simp [alookup]
  | cons q rest ih =>
    obtain ⟨k', v'⟩ := q
    simp only [alookup] at h
    by_cases hk : k = k'
    · rw [if_pos hk] at h; exact absurd h (by simp)
    · rw [if_neg hk] at h
      by_cases hp : p (k', v') = true
      · simp [List.filter_cons, hp, alookup, hk, ih h]
      · simp [List.filter_cons, hp, ih h]

lemma alookup_filter_some {κ α : Type} [DecidableEq κ] (k : κ) (v : α)
    (p : κ × α → Bool) (l : List (κ × α)) (h : alookup k l = some v)
    (hp : p (k, v) = true) : alookup k (l.filter p) = some v := by
  induction l with
  | nil => simp [alookup] at h
  | cons q rest ih =>
    obtain ⟨k', v'⟩ := q
    simp only [alookup] at h
    by_cases hk : k = k'
    · rw [if_pos hk] at h
      have hv : v' = v := Option.some.inj h
      subst hv
      subst hk
      simp [List.filter_cons, hp, alookup]
    · rw [if_neg hk] at h
      by_cases hpq : p (k', v') = true
      · simp [List.filter_cons, hpq, alookup, hk, ih h]
      · simp [List.filter_cons, hpq, ih h]

lemma alookup_filter_not {κ α : Type} [DecidableEq κ] (k : κ) (v : α)
    (p : κ × α → Bool) (l : List (κ × α)) (hnd : (l.map Prod.fst).Nodup)
    (h : alookup k l = some v) (hp : p (k, v) = false) :
    alookup k (l.filter p) = none := by
  induction l with
  | nil => simp [alookup] at h
  | cons q rest ih =>
    obtain ⟨k', v'⟩ := q
    rw [List.map_cons, List.nodup_cons] at hnd
    simp only [alookup] at h
    by_cases hk : k = k'
    · rw [if_pos hk] at h
      have hv : v' = v := Option.some.inj h
      subst hv
      subst hk
      simp only [List.filter_cons, hp, Bool.false_eq_true, if_neg, if_false]
      exact alookup_filter_none k p rest (alookup_eq_none_of_not_mem_keys k rest hnd.1)
    · rw [if_neg hk] at h
      by_cases hpq : p (k', v') = true
      · simp [List.filter_cons, hpq, alookup, hk, ih hnd.2 h]
      · simp [List.filter_cons, hpq, ih hnd.2 h]

lemma alookup_aremove_self {κ α : Type} [DecidableEq κ] (k : κ)
    (l : List (κ × α)) (hnd : (l.map Prod.fst).Nodup) :
    alookup k (aremove k l) = none := by
  induction l with
  | nil => simp [aremove, alookup]
  | cons q rest ih =>
    obtain ⟨k', v'⟩ := q
    rw [List.map_cons, List.nodup_cons] at hnd
    simp only [aremove]
    by_cases hk : k = k'
    · rw [if_pos hk]
      subst hk
      exact alookup_eq_none_of_not_mem_keys k rest hnd.1
    · rw [if_neg hk]
      simp only [alookup, if_neg hk]
      exact ih hnd.2

/-- C8.  For a bag-class detection with a positive abandonment threshold
(default 60 s) and unique state keys (a dict invariant): a first sighting
at a given rounded center opens a `StationaryObjectState` and emits
nothing; a subsequent sighting at the same rounded center with
`now - first_seen ≥ abandoned_object_threshold` emits exactly one
`ABANDONED_OBJECT` event of medium threat and removes the state; and any
state whose `last_seen` is at least `2 × abandoned_object_threshold` old is
removed without emitting. -/
theorem abandoned_object_spec (a : Analyzer) (det : Detection) (now : ℚ)
    (hbag : det.classId ∈ [24, 26, 28])
    (hthr : 0 < a.abandonedObjectThreshold)
    (hnd : (a.stationaryObjects.map Prod.fst).Nodup) :
    (alookup (objectIdOf det) a.stationaryObjects = none →
      (detect_abandoned_objects a [det] now).1 = [] ∧
      alookup (objectIdOf det)
        (detect_abandoned_objects a [det] now).2.stationaryObjects =
        some ⟨now, now, bboxCenterOf det.bbox, det⟩) ∧
    (∀ st, alookup (objectIdOf det) a.stationaryObjects = some st →
      now - st.firstSeen ≥ a.abandonedObjectThreshold →
      (detect_abandoned_objects a [det] now).1.length = 1 ∧
      (∀ act ∈ (detect_abandoned_objects a [det] now).1,
        act.activityType = ActivityType.abandonedObject ∧
          act.threatLevel = ThreatLevel.medium) ∧
      alookup (objectIdOf det)
        (detect_abandoned_objects a [det] now).2.stationaryObjects = none) ∧
    ((detect_abandoned_objects a [] now).1 = [] ∧
      ∀ k st, alookup k a.stationaryObjects = some st →
        now - st.lastSeen ≥ 2 * a.abandonedObjectThreshold →
        alookup k (detect_abandoned_objects a [] now).2.stationaryObjects = none) := by
  have hfilter : [det].filter (fun d => decide (d.classId ∈ [24, 26, 28])) = [det] := by
    rcases (by simpa using hbag : det.classId = 24 ∨ det.classId = 26 ∨ det.classId = 28)
      with h | h | h <;> simp [h]
  refine ⟨?_, ?_, ?_⟩
  · intro hnone
    simp only [detect_abandoned_objects, hfilter, abandonedGo, hnone]
    refine ⟨trivial, ?_⟩
    apply alookup_filter_some
    · exact alookup_astore_self _ _ _
    · simp only [decide_eq_true_eq]
      linarith
  · intro st hsome hmature
    simp only [detect_abandoned_objects, hfilter, abandonedGo, hsome]
    rw [if_pos hmature]
    refine ⟨by simp [abandonedGo], ?_, ?_⟩
    · intro act hact
      simp only [abandonedGo, List.mem_singleton] at hact
      subst hact
      exact ⟨rfl, rfl⟩
    · exact alookup_filter_none _ _ _ (alookup_aremove_self _ _ hnd)
  · constructor
    · simp [detect_abandoned_objects, abandonedGo]
    · intro k st hsome hstale
      simp only [detect_abandoned_objects, List.filter_nil, abandonedGo]
      apply alookup_filter_not k st _ _ hnd hsome
      simp only [decide_eq_false_iff_not, not_lt]
      linarith

/-- Witness for `abandoned_object_spec`: a fresh analyzer seeing one
backpack detection for the first time. -/
theorem abandoned_object_spec_witness :
    (detect_abandoned_objects loiterAnalyzerW
      [⟨⟨0, 0, 10, 10⟩, 9/10, 24, "backpack"⟩] 5).1 = [] ∧
    alookup (objectIdOf ⟨⟨0, 0, 10, 10⟩, 9/10, 24, "backpack"⟩)
      (detect_abandoned_objects loiterAnalyzerW
        [⟨⟨0, 0, 10, 10⟩, 9/10, 24, "backpack"⟩] 5).2.stationaryObjects =
      some ⟨5, 5, bboxCenterOf ⟨0, 0, 10, 10⟩, ⟨⟨0, 0, 10, 10⟩, 9/10, 24, "backpack"⟩⟩ :=
  (abandoned_object_spec loiterAnalyzerW ⟨⟨0, 0, 10, 10⟩, 9/10, 24, "backpack"⟩ 5
    (by decide) (by decide) (by decide)).1 (by decide)

/-- The inner scan of `_match_detections_to_tracks` is insensitive to the
order of the used-index list (it only tests membership). -/
lemma bestDetection_congr_used (thr : ℚ) (tb : Box) (used1 used2 : List ℕ)
    (h : ∀ j, j ∈ used1 ↔ j ∈ used2) :
    ∀ (l : List Detection) (idx : ℕ) (bi : ℚ) (best : Option ℕ),
      bestDetection thr tb used1 l idx bi best =
        bestDetection thr tb used2 l idx bi best := by
  intro l
  induction l with
  | nil => intro _ _ _; rfl
  | cons det rest ih =>
    intro idx bi best
    simp only [bestDetection]
    by_cases hu : idx ∈ used1
    · rw [if_pos hu, if_pos ((h idx).mp hu)]; exact ih _ _ _
    · rw [if_neg hu, if_neg (fun hc => hu ((h idx).mpr hc))]
      by_cases hcond : calculate_iou tb det.bbox > thr ∧ calculate_iou tb det.bbox > bi
      · rw [if_pos hcond, if_pos hcond]; exact ih _ _ _
      · rw [if_neg hcond, if_neg hcond]; exact ih _ _ _

/-- Full specification of the inner scan of `_match_detections_to_tracks`:
when it returns a detection index, that index is unused, its IoU with the
track exceeds the threshold, and no unused detection has a strictly larger
IoU.  The lemma generalizes over the loop state (`l` is the unscanned
suffix of `dets`, `bi`/`best` the best-so-far accumulator). -/
lemma bestDetection_spec (thr : ℚ) (tb : Box) (used : List ℕ)
    (dets : List Detection) :
    ∀ (l : List Detection) (idx : ℕ) (bi : ℚ) (best : Option ℕ),
      (∀ j, l.get? j = dets.get? (idx + j)) →
      0 ≤ bi →
      (∀ e, best = some e → e ∉ used ∧
        ∃ det, dets.get? e = some det ∧ calculate_iou tb det.bbox = bi ∧ bi > thr) →
      (∀ j det, j < idx → j ∉ used → dets.get? j = some det →
        calculate_iou tb det.bbox ≤ bi ∨ calculate_iou tb det.bbox ≤ thr) →
      ∀ d, bestDetection thr tb used l idx bi best = some d →
        d ∉ used ∧
        ∃ det, dets.get? d = some det ∧ calculate_iou tb det.bbox > thr ∧
          (∀ j det', j < idx + l.length → j ∉ used → dets.get? j = some det' →
            calculate_iou tb det'.bbox ≤ calculate_iou tb det.bbox) := by
  intro l
  induction l with
  | nil =>
    intro idx bi best hsuf hbi hbest hopt d hres
    simp only [bestDetection] at hres
    obtain ⟨hdu, det, hget, hiou, hgt⟩ := hbest d hres
    refine ⟨hdu, det, hget, by rw [hiou]; exact hgt, ?_⟩
    intro j det' hj hju hget'
    rcases hopt j det' (by simpa using hj) hju hget' with h | h
    · rw [hiou]; exact h
    · rw [hiou]; linarith
  | cons det0 rest ih =>
    intro idx bi best hsuf hbi hbest hopt d hres
    have hget0 : dets.get? idx = some det0 := by
      have h0 := hsuf 0
      simpa using h0.symm
    have hsuf' : ∀ j, rest.get? j = dets.get? (idx + 1 + j) := by
      intro j
      have hj := hsuf (j + 1)
      have harith : idx + (j + 1) = idx + 1 + j := by omega
      rw [harith] at hj
      simpa using hj
    simp only [bestDetection] at hres
    by_cases hu : idx ∈ used
    · rw [if_pos hu] at hres
      have hopt' : ∀ j det, j < idx + 1 → j ∉ used → dets.get? j = some det →
          calculate_iou tb det.bbox ≤ bi ∨ calculate_iou tb det.bbox ≤ thr := by
        intro j det hj hju hget
        rcases Nat.lt_succ_iff_lt_or_eq.mp hj with h | h
        · exact hopt j det h hju hget
        · exact absurd (h ▸ hu) hju
      obtain ⟨h1, det, h2, h3, h4⟩ := ih (idx + 1) bi best hsuf' hbi hbest hopt' d hres
      refine ⟨h1, det, h2, h3, ?_⟩
      intro j det' hj hju hget'
      have hj' : j < idx + 1 + rest.length := by
        simp only [List.length_cons] at hj
        omega
      exact h4 j det' hj' hju hget'
    · rw [if_neg hu] at hres
      by_cases hcond : calculate_iou tb det0.bbox > thr ∧ calculate_iou tb det0.bbox > bi
      · rw [if_pos hcond] at hres
        have hbi' : 0 ≤ calculate_iou tb det0.bbox := le_trans hbi (le_of_lt hcond.2)
        have hbest' : ∀ e, (some idx : Option ℕ) = some e → e ∉ used ∧
            ∃ det, dets.get? e = some det ∧
              calculate_iou tb det.bbox = calculate_iou tb det0.bbox ∧
              calculate_iou tb det0.bbox > thr := by
          intro e he
          obtain rfl := (Option.some.inj he).symm
          exact ⟨hu, det0, hget0, rfl, hcond.1⟩
        have hopt' : ∀ j det, j < idx + 1 → j ∉ used → dets.get? j = some det →
            calculate_iou tb det.bbox ≤ calculate_iou tb det0.bbox ∨
              calculate_iou tb det.bbox ≤ thr := by
          intro j det hj hju hget
          rcases Nat.lt_succ_iff_lt_or_eq.mp hj with h | h
          · rcases hopt j det h hju hget with hh | hh
            · left; linarith [hcond.2]
            · right; exact hh
          · subst h
            rw [hget0] at hget
            obtain rfl := Option.some.inj hget
            left; exact le_refl _
        obtain ⟨h1, det, h2, h3, h4⟩ := ih (idx + 1) (calculate_iou tb det0.bbox)
          (some idx) hsuf' hbi' hbest' hopt' d hres
        refine ⟨h1, det, h2, h3, ?_⟩
        intro j det' hj hju hget'
        have hj' : j < idx + 1 + rest.length := by
          simp only [List.length_cons] at hj
          omega
        exact h4 j det' hj' hju hget'
      · rw [if_neg hcond] at hres
        have hopt' : ∀ j det, j < idx + 1 → j ∉ used → dets.get? j = some det →
            calculate_iou tb det.bbox ≤ bi ∨ calculate_iou tb det.bbox ≤ thr := by
          intro j det hj hju hget
          rcases Nat.lt_succ_iff_lt_or_eq.mp hj with h | h
          · exact hopt j det h hju hget
          · subst h
            rw [hget0] at hget
            obtain rfl := Option.some.inj hget
            by_cases hgt : calculate_iou tb det0.bbox > thr
            · left
              rcases not_and_or.mp hcond with hc | hc
              · exact absurd hgt hc
              · exact not_lt.mp hc
            · right; exact not_lt.mp hgt
        obtain ⟨h1, det, h2, h3, h4⟩ := ih (idx + 1) bi best hsuf' hbi hbest hopt' d hres
        refine ⟨h1, det, h2, h3, ?_⟩
        intro j det' hj hju hget'
        have hj' : j < idx + 1 + rest.length := by
          simp only [List.length_cons] at hj
          omega
        exact h4 j det' hj' hju hget'

/-- Splitting the greedy matching at one entry: the matched track occurs in
the input track list, and its detection index was produced by the inner
scan with exactly the detections already taken by earlier tracks (plus the
incoming used set) excluded. -/
lemma matchGo_split (thr : ℚ) (dets : List Detection) :
    ∀ (tracks : List (ℕ × TrackState)) (used : List ℕ)
      (pre post : List (ℕ × ℕ)) (tid d : ℕ),
      matchGo thr dets tracks used = pre ++ (tid, d) :: post →
      ∃ ts, (tid, ts) ∈ tracks ∧
        bestDetection thr ts.bbox (pre.map Prod.snd ++ used) dets 0 0 none = some d := by
  intro tracks
  induction tracks with
  | nil =>
    intro used pre post tid d h
    simp only [matchGo] at h
    exact absurd h.symm (List.append_ne_nil_of_right_ne_nil _ (by simp))
  | cons p rest ih =>
    intro used pre post tid d h
    obtain ⟨t0, ts0⟩ := p
    simp only [matchGo] at h
    cases hbd : bestDetection thr ts0.bbox used dets 0 0 none with
    | none =>
      rw [hbd] at h
      obtain ⟨ts, hmem, hbest⟩ := ih used pre post tid d h
      exact ⟨ts, List.mem_cons_of_mem _ hmem, hbest⟩
    | some d0 =>
      rw [hbd] at h
      cases pre with
      | nil =>
        simp only [List.nil_append, List.cons.injEq] at h
        obtain ⟨h1, _⟩ := h
        obtain ⟨rfl, rfl⟩ := Prod.mk.injEq .. ▸ h1
        refine ⟨ts0, List.mem_cons_self _ _, ?_⟩
        rw [bestDetection_congr_used thr ts0.bbox _ used (by simp)]
        exact hbd
      | cons q pre' =>
        simp only [List.cons_append, List.cons.injEq] at h
        obtain ⟨hq, h2⟩ := h
        obtain ⟨ts, hmem, hbest⟩ := ih (d0 :: used) pre' post tid d h2
        refine ⟨ts, List.mem_cons_of_mem _ hmem, ?_⟩
        rw [← hbest]
        apply bestDetection_congr_used
        intro j
        subst hq
        simp only [List.map_cons, List.mem_cons, List.mem_append]
        tauto

/-- A matched detection index was not in the incoming used set. -/
lemma matchGo_snd_not_used (thr : ℚ) (dets : List Detection) :
    ∀ (tracks : List (ℕ × TrackState)) (used : List ℕ) (tid d : ℕ),
      (tid, d) ∈ matchGo thr dets tracks used → d ∉ used := by
  intro tracks
  induction tracks with
  | nil => intro used tid d h; simp [matchGo] at h
  | cons p rest ih =>
    intro used tid d h
    obtain ⟨t0, ts0⟩ := p
    simp only [matchGo] at h
    cases hbd : bestDetection thr ts0.bbox used dets 0 0 none with
    | none =>
      rw [hbd] at h
      exact ih used tid d h
    | some d0 =>
      rw [hbd] at h
      rcases List.mem_cons.mp h with h1 | h1
      · have hd : d = d0 := by
          have := congrArg Prod.snd h1
          simpa using this
        subst hd
        have hspec := bestDetection_spec thr ts0.bbox used dets dets 0 0 none
          (fun j => by rw [Nat.zero_add])
          (le_refl 0)
          (fun e he => absurd he (by simp))
          (fun j det hj _ _ => absurd hj (Nat.not_lt_zero j))
          d hbd
        exact hspec.1
      · have hnot := ih (d0 :: used) tid d h1
        exact fun hc => hnot (List.mem_cons_of_mem _ hc)

/-- Matched detection indices are pairwise distinct. -/
lemma matchGo_snd_nodup (thr : ℚ) (dets : List Detection) :
    ∀ (tracks : List (ℕ × TrackState)) (used : List ℕ),
      ((matchGo thr dets tracks used).map Prod.snd).Nodup := by
  intro tracks
  induction tracks with
  | nil => intro used; simp [matchGo]
  | cons p rest ih =>
    intro used
    obtain ⟨t0, ts0⟩ := p
    simp only [matchGo]
    cases hbd : bestDetection thr ts0.bbox used dets 0 0 none with
    | none => exact ih used
    | some d0 =>
      simp only [List.map_cons, List.nodup_cons]
      refine ⟨?_, ih (d0 :: used)⟩
      intro hmem
      obtain ⟨⟨tid1, d1⟩, hmem1, hd1⟩ := List.mem_map.mp hmem
      simp only at hd1
      subst hd1
      exact matchGo_snd_not_used thr dets rest (d1 :: used) tid1 d1 hmem1
        (List.mem_cons_self _ _)

/-- Matched track ids form a sublist of the input track-id list. -/
lemma matchGo_fst_sublist (thr : ℚ) (dets : List Detection) :
    ∀ (tracks : List (ℕ × TrackState)) (used : List ℕ),
      ((matchGo thr dets tracks used).map Prod.fst).Sublist
        (tracks.map Prod.fst) := by
  intro tracks
  induction tracks with
  | nil => intro used; simp [matchGo]
  | cons p rest ih =>
    intro used
    obtain ⟨t0, ts0⟩ := p
    simp only [matchGo]
    cases bestDetection thr ts0.bbox used dets 0 0 none with
    | none => exact (ih used).trans (List.sublist_cons_self _ _)
    | some d0 =>
      simp only [List.map_cons]
      exact List.Sublist.cons₂ _ (ih (d0 :: used))

/-- C5.  In `_match_detections_to_tracks`: every matched pair pairs a track
of the store with a detection whose IoU strictly exceeds the threshold (so
a below-threshold detection never matches); the matched detection maximizes
IoU among the detections not already taken by earlier-iterated tracks; each
detection is matched to at most one track; and (for distinct track ids, a
dict invariant) each track matches at most one detection. -/
theorem iou_association_spec (tr : PersonTracker) (dets : List Detection) :
    (∀ (pre post : List (ℕ × ℕ)) (tid d : ℕ),
      match_detections_to_tracks tr dets = pre ++ (tid, d) :: post →
      ∃ ts det, (tid, ts) ∈ tr.tracks ∧ dets.get? d = some det ∧
        calculate_iou ts.bbox det.bbox > tr.iouThreshold ∧
        ∀ j det', j ∉ pre.map Prod.snd → dets.get? j = some det' →
          calculate_iou ts.bbox det'.bbox ≤ calculate_iou ts.bbox det.bbox) ∧
    ((match_detections_to_tracks tr dets).map Prod.snd).Nodup ∧
    ((tr.tracks.map Prod.fst).Nodup →
      ((match_detections_to_tracks tr dets).map Prod.fst).Nodup) := by
  refine ⟨?_, matchGo_snd_nodup _ _ _ _, ?_⟩
  · intro pre post tid d hsplit
    obtain ⟨ts, hmem, hbest⟩ := matchGo_split tr.iouThreshold dets tr.tracks [] pre
      post tid d hsplit
    have hspec := bestDetection_spec tr.iouThreshold ts.bbox (pre.map Prod.snd ++ [])
      dets dets 0 0 none
      (fun j => by rw [Nat.zero_add])
      (le_refl 0)
      (fun e he => absurd he (by simp))
      (fun j det hj _ _ => absurd hj (Nat.not_lt_zero j))
      d hbest
    obtain ⟨hdu, det, hget, hiou, hmax⟩ := hspec
    refine ⟨ts, det, hmem, hget, hiou, ?_⟩
    intro j det' hju hget'
    have hjlen : j < 0 + dets.length := by
      obtain ⟨hlt, -⟩ := List.get?_eq_some.mp hget'
      omega
    exact hmax j det' hjlen (by simpa using hju) hget'
  · intro hnd
    exact (matchGo_fst_sublist tr.iouThreshold dets tr.tracks []).nodup hnd

/-- Witness for `iou_association_spec`: one stored track, one overlapping
detection. -/
theorem iou_association_spec_witness :
    ((match_detections_to_tracks
      ⟨50, 5, 5, 1/2, 2,
        [(1, ⟨1, ⟨0, 0, 10, 10⟩, (5, 5), ⟨⟨0, 0, 10, 10⟩, 1, 0, "person"⟩, 1, 0, 0,
          3, [], "unknown", AuthStatus.pending⟩)]⟩
      [⟨⟨0, 0, 10, 9⟩, 1, 0, "person"⟩]).map Prod.fst).Nodup :=
  (iou_association_spec
    ⟨50, 5, 5, 1/2, 2,
      [(1, ⟨1, ⟨0, 0, 10, 10⟩, (5, 5), ⟨⟨0, 0, 10, 10⟩, 1, 0, "person"⟩, 1, 0, 0,
        3, [], "unknown", AuthStatus.pending⟩)]⟩
    [⟨⟨0, 0, 10, 9⟩, 1, 0, "person"⟩]).2.2 (by decide)

/-- Whatever `detect_running` emits is a `RUNNING` event. -/
lemma detect_running_shape (sqrtFn : ℚ → ℚ) (a : Analyzer) (ts : TrackState)
    (now : ℚ) (act : SuspiciousActivity)
    (h : detect_running sqrtFn a ts now = some act) :
    act.activityType = ActivityType.running := by
  simp only [detect_running] at h
  split_ifs at h
  obtain rfl := Option.some.inj h
  rfl

/-- `detect_zone_intrusion` on a fresh (trackId, zone) key for an intruder
inside a restricted intrusion zone: one HIGH event, and the key is recorded
in `zone_intrusions`. -/
lemma detect_zone_intrusion_accept (a : Analyzer) (ts : TrackState) (now : ℚ)
    (z : DetectionZone)
    (hz : get_zone_for_point a.zones ts.center = some z)
    (hzt : z.zoneType = "restricted")
    (hza : ActivityType.zoneIntrusion ∈ z.activityTypes)
    (hauth : ts.authorizationStatus = AuthStatus.intruder)
    (hfresh : alookup (ts.trackId, z.name) a.zoneIntrusions = none) :
    ∃ act, detect_zone_intrusion a ts now =
      (some act,
        { a with zoneIntrusions := astore (ts.trackId, z.name) now a.zoneIntrusions }) ∧
      act.activityType = ActivityType.zoneIntrusion ∧
      act.threatLevel = ThreatLevel.high := by
  simp only [detect_zone_intrusion, hz]
  rw [if_neg (by simp [hzt]), if_neg (not_not_intro hza),
    if_neg (by rw [hauth]; simp)]
  rw [if_neg (by rw [hfresh]; simp)]
  rw [hauth]
  exact ⟨_, rfl, rfl, by simp⟩

/-- `detect_zone_intrusion` never fires twice for the same (trackId,
zoneName) key: with the key already recorded, nothing is emitted. -/
lemma detect_zone_intrusion_dup (a : Analyzer) (ts : TrackState) (now : ℚ)
    (z : DetectionZone)
    (hz : get_zone_for_point a.zones ts.center = some z)
    (hdup : (alookup (ts.trackId, z.name) a.zoneIntrusions).isSome) :
    detect_zone_intrusion a ts now = (none, a) := by
  simp only [detect_zone_intrusion, hz]
  by_cases h1 : z.zoneType ≠ "restricted"
  · rw [if_pos h1]
  · rw [if_neg h1]
    by_cases h2 : ActivityType.zoneIntrusion ∉ z.activityTypes
    · rw [if_pos h2]
    · rw [if_neg h2]
      by_cases h3 : ts.authorizationStatus = AuthStatus.authorized
      · rw [if_pos h3]
      · rw [if_neg h3, if_pos hdup]

/-- An authorized track never yields a zone-intrusion event. -/
lemma detect_zone_intrusion_authorized (a : Analyzer) (ts : TrackState)
    (now : ℚ) (hauth : ts.authorizationStatus = AuthStatus.authorized) :
    (detect_zone_intrusion a ts now).1 = none := by
  simp only [detect_zone_intrusion]
  cases hz : get_zone_for_point a.zones ts.center with
  | none => rfl
  | some z =>
    dsimp only
    by_cases h1 : z.zoneType ≠ "restricted"
    · rw [if_pos h1]
    · rw [if_neg h1]
      by_cases h2 : ActivityType.zoneIntrusion ∉ z.activityTypes
      · rw [if_pos h2]
      · rw [if_neg h2, if_pos hauth]

/-- `detect_unauthorized_person` on a fresh activity id for an intruder:
one HIGH event, and the id is recorded in `active_activities`. -/
lemma detect_unauthorized_accept (a : Analyzer) (ts : TrackState) (now : ℚ)
    (hauth : ts.authorizationStatus = AuthStatus.intruder)
    (hfresh : alookup ("unauthorized_" ++ toString ts.trackId)
      a.activeActivities = none) :
    ∃ act, detect_unauthorized_person a ts now =
      (some act,
        { a with activeActivities :=
            astore ("unauthorized_" ++ toString ts.trackId) act a.activeActivities }) ∧
      act.activityType = ActivityType.unauthorizedPerson ∧
      act.threatLevel = ThreatLevel.high := by
  simp only [detect_unauthorized_person]
  rw [if_neg (not_not_intro hauth), if_neg (by rw [hfresh]; simp)]
  exact ⟨_, rfl, rfl, rfl⟩

/-- `detect_unauthorized_person` fires at most once per track: with the
activity id already recorded, nothing is emitted. -/
lemma detect_unauthorized_dup (a : Analyzer) (ts : TrackState) (now : ℚ)
    (hdup : (alookup ("unauthorized_" ++ toString ts.trackId)
      a.activeActivities).isSome) :
    detect_unauthorized_person a ts now = (none, a) := by
  simp only [detect_unauthorized_person]
  by_cases h1 : ts.authorizationStatus ≠ AuthStatus.intruder
  · rw [if_pos h1]
  · rw [if_neg h1, if_pos hdup]

/-- `analyze_frame` on one confirmed track and no raw detections: the
emitted events are exactly those of the four per-track detectors run in
order, and the zones / intrusion keys / active-activity ids of the
resulting analyzer are those left by `detect_unauthorized_person`. -/
lemma analyze_frame_single (sqrtFn : ℚ → ℚ) (a : Analyzer) (tid : ℕ)
    (ts : TrackState) (now : ℚ) (h10 : ¬ (ts.frameCount < 10)) :
    (analyze_frame sqrtFn a [] [(tid, ts)] now).1 =
      (detect_loitering a ts now).toList ++
      (detect_zone_intrusion a ts now).1.toList ++
      (detect_unauthorized_person (detect_zone_intrusion a ts now).2 ts now).1.toList ++
      (detect_running sqrtFn
        (detect_unauthorized_person (detect_zone_intrusion a ts now).2 ts now).2
        ts now).toList ∧
    (analyze_frame sqrtFn a [] [(tid, ts)] now).2.zones =
      (detect_unauthorized_person (detect_zone_intrusion a ts now).2 ts now).2.zones ∧
    (analyze_frame sqrtFn a [] [(tid, ts)] now).2.zoneIntrusions =
      (detect_unauthorized_person (detect_zone_intrusion a ts now).2 ts
        now).2.zoneIntrusions ∧
    (analyze_frame sqrtFn a [] [(tid, ts)] now).2.activeActivities =
      (detect_unauthorized_person (detect_zone_intrusion a ts now).2 ts
        now).2.activeActivities := by
  simp only [analyze_frame, analyzeTracksGo, if_neg h10, detect_weapon,
    detect_abandoned_objects, abandonedGo, List.filter_nil, List.filterMap_nil,
    List.append_nil]
  exact ⟨trivial, trivial, trivial, trivial⟩

lemma countType_append (l1 l2 : List SuspiciousActivity) (t : ActivityType) :
    countType (l1 ++ l2) t = countType l1 t + countType l2 t :=
  List.countP_append _ _ _

lemma countTypeLevel_append (l1 l2 : List SuspiciousActivity) (t : ActivityType)
    (lvl : ThreatLevel) :
    countTypeLevel (l1 ++ l2) t lvl = countTypeLevel l1 t lvl + countTypeLevel l2 t lvl :=
  List.countP_append _ _ _

lemma countType_toList_ne (o : Option SuspiciousActivity) (t : ActivityType)
    (h : ∀ act, o = some act → act.activityType ≠ t) :
    countType o.toList t = 0 := by
  cases o with
  | none => rfl
  | some act => simp [countType, h act rfl]

lemma countTypeLevel_toList_ne (o : Option SuspiciousActivity) (t : ActivityType)
    (lvl : ThreatLevel) (h : ∀ act, o = some act → act.activityType ≠ t) :
    countTypeLevel o.toList t lvl = 0 := by
  cases o with
  | none => rfl
  | some act => simp [countTypeLevel, h act rfl]

/-- C3.  End-to-end zone-intrusion / unauthorized-person dedup: for a
confirmed intruder track whose center falls in a restricted zone with the
`zoneIntrusion` activity enabled, neither of the two dedup keys yet
recorded, one `analyze_frame` tick over that single track (no raw
detections) emits exactly one `ZONE_INTRUSION` (high) and exactly one
`UNAUTHORIZED_PERSON` (high); a subsequent tick over the same track emits
neither again; and an authorized track never yields a `ZONE_INTRUSION`. -/
theorem zone_intrusion_dedup_spec (sqrtFn : ℚ → ℚ) (a : Analyzer) (tid : ℕ)
    (ts : TrackState) (now now2 : ℚ) (z : DetectionZone)
    (hz : get_zone_for_point a.zones ts.center = some z)
    (hzt : z.zoneType = "restricted")
    (hza : ActivityType.zoneIntrusion ∈ z.activityTypes)
    (hfreshZ : alookup (ts.trackId, z.name) a.zoneIntrusions = none)
    (hfreshU : alookup ("unauthorized_" ++ toString ts.trackId)
      a.activeActivities = none)
    (h10 : ts.frameCount ≥ 10)
    (hauth : ts.authorizationStatus = AuthStatus.intruder) :
    countType (analyze_frame sqrtFn a [] [(tid, ts)] now).1
      ActivityType.zoneIntrusion = 1 ∧
    countTypeLevel (analyze_frame sqrtFn a [] [(tid, ts)] now).1
      ActivityType.zoneIntrusion ThreatLevel.high = 1 ∧
    countType (analyze_frame sqrtFn a [] [(tid, ts)] now).1
      ActivityType.unauthorizedPerson = 1 ∧
    countTypeLevel (analyze_frame sqrtFn a [] [(tid, ts)] now).1
      ActivityType.unauthorizedPerson ThreatLevel.high = 1 ∧
    countType (analyze_frame sqrtFn
      (analyze_frame sqrtFn a [] [(tid, ts)] now).2 [] [(tid, ts)] now2).1
      ActivityType.zoneIntrusion = 0 ∧
    countType (analyze_frame sqrtFn
      (analyze_frame sqrtFn a [] [(tid, ts)] now).2 [] [(tid, ts)] now2).1
      ActivityType.unauthorizedPerson = 0 ∧
    (∀ (b : Analyzer) (ts' : TrackState) (t : ℚ),
      ts'.authorizationStatus = AuthStatus.authorized →
      (detect_zone_intrusion b ts' t).1 = none) := by
  have h10' : ¬ (ts.frameCount < 10) := not_lt.mpr h10
  obtain ⟨ziAct, hziEq, hziTy, hziLv⟩ :=
    detect_zone_intrusion_accept a ts now z hz hzt hza hauth hfreshZ
  have hfreshU' : alookup ("unauthorized_" ++ toString ts.trackId)
      ({ a with zoneIntrusions := astore (ts.trackId, z.name) now a.zoneIntrusions } :
        Analyzer).activeActivities = none := hfreshU
  obtain ⟨upAct, hupEq, hupTy, hupLv⟩ :=
    detect_unauthorized_accept _ ts now hauth hfreshU'
  obtain ⟨hacts1, hzones1, hzi1, haa1⟩ := analyze_frame_single sqrtFn a tid ts now h10'
  rw [hziEq] at hacts1 hzones1 hzi1 haa1
  simp only at hacts1 hzones1 hzi1 haa1
  rw [hupEq] at hacts1 hzones1 hzi1 haa1
  simp only [Option.toList_some] at hacts1 hzones1 hzi1 haa1
  have hcount1Z : countType (analyze_frame sqrtFn a [] [(tid, ts)] now).1
      ActivityType.zoneIntrusion = 1 := by
    rw [hacts1, countType_append, countType_append, countType_append]
    rw [countType_toList_ne _ _ (fun act h =>
      by rw [(detect_loitering_shape a ts now act h).1]; decide)]
    rw [countType_toList_ne _ _ (fun act h =>
      by rw [detect_running_shape sqrtFn _ ts now act h]; decide)]
    simp [countType, hziTy, hupTy]
  have hcount1ZL : countTypeLevel (analyze_frame sqrtFn a [] [(tid, ts)] now).1
      ActivityType.zoneIntrusion ThreatLevel.high = 1 := by
    rw [hacts1, countTypeLevel_append, countTypeLevel_append, countTypeLevel_append]
    rw [countTypeLevel_toList_ne _ _ _ (fun act h =>
      by rw [(detect_loitering_shape a ts now act h).1]; decide)]
    rw [countTypeLevel_toList_ne _ _ _ (fun act h =>
      by rw [detect_running_shape sqrtFn _ ts now act h]; decide)]
    simp [countTypeLevel, hziTy, hziLv, hupTy]
  have hcount1U : countType (analyze_frame sqrtFn a [] [(tid, ts)] now).1
      ActivityType.unauthorizedPerson = 1 := by
    rw [hacts1, countType_append, countType_append, countType_append]
    rw [countType_toList_ne _ _ (fun act h =>
      by rw [(detect_loitering_shape a ts now act h).1]; decide)]
    rw [countType_toList_ne _ _ (fun act h =>
      by rw [detect_running_shape sqrtFn _ ts now act h]; decide)]
    simp [countType, hziTy, hupTy]
  have hcount1UL : countTypeLevel (analyze_frame sqrtFn a [] [(tid, ts)] now).1
      ActivityType.unauthorizedPerson ThreatLevel.high = 1 := by
    rw [hacts1, countTypeLevel_append, countTypeLevel_append, countTypeLevel_append]
    rw [countTypeLevel_toList_ne _ _ _ (fun act h =>
      by rw [(detect_loitering_shape a ts now act h).1]; decide)]
    rw [countTypeLevel_toList_ne _ _ _ (fun act h =>
      by rw [detect_running_shape sqrtFn _ ts now act h]; decide)]
    simp [countTypeLevel, hziTy, hupTy, hupLv]
  -- second tick
  have hzones : (analyze_frame sqrtFn a [] [(tid, ts)] now).2.zones = a.zones := by
    rw [hzones1]
  have hziKeys : (analyze_frame sqrtFn a [] [(tid, ts)] now).2.zoneIntrusions =
      astore (ts.trackId, z.name) now a.zoneIntrusions := by
    rw [hzi1]
  have haaKeys : (analyze_frame sqrtFn a [] [(tid, ts)] now).2.activeActivities =
      astore ("unauthorized_" ++ toString ts.trackId) upAct a.activeActivities := by
    rw [haa1]
  obtain ⟨hacts2, -, -, -⟩ := analyze_frame_single sqrtFn
    (analyze_frame sqrtFn a [] [(tid, ts)] now).2 tid ts now2 h10'
  have hz2 : get_zone_for_point
      (analyze_frame sqrtFn a [] [(tid, ts)] now).2.zones ts.center = some z := by
    rw [hzones]; exact hz
  have hdup2 : (alookup (ts.trackId, z.name)
      (analyze_frame sqrtFn a [] [(tid, ts)] now).2.zoneIntrusions).isSome := by
    rw [hziKeys, alookup_astore_self]; rfl
  have hzi2 := detect_zone_intrusion_dup _ ts now2 z hz2 hdup2
  have hdupU : (alookup ("unauthorized_" ++ toString ts.trackId)
      (analyze_frame sqrtFn a [] [(tid, ts)] now).2.activeActivities).isSome := by
    rw [haaKeys, alookup_astore_self]; rfl
  have hup2 := detect_unauthorized_dup _ ts now2 hdupU
  rw [hzi2] at hacts2
  simp only at hacts2
  rw [hup2] at hacts2
  simp only [Option.toList_none, List.append_nil, List.nil_append] at hacts2
  have hcount2Z : countType (analyze_frame sqrtFn
      (analyze_frame sqrtFn a [] [(tid, ts)] now).2 [] [(tid, ts)] now2).1
      ActivityType.zoneIntrusion = 0 := by
    rw [hacts2, countType_append]
    rw [countType_toList_ne _ _ (fun act h =>
      by rw [(detect_loitering_shape _ ts now2 act h).1]; decide)]
    rw [countType_toList_ne _ _ (fun act h =>
      by rw [detect_running_shape sqrtFn _ ts now2 act h]; decide)]
  have hcount2U : countType (analyze_frame sqrtFn
      (analyze_frame sqrtFn a [] [(tid, ts)] now).2 [] [(tid, ts)] now2).1
      ActivityType.unauthorizedPerson = 0 := by
    rw [hacts2, countType_append]
    rw [countType_toList_ne _ _ (fun act h =>
      by rw [(detect_loitering_shape _ ts now2 act h).1]; decide)]
    rw [countType_toList_ne _ _ (fun act h =>
      by rw [detect_running_shape sqrtFn _ ts now2 act h]; decide)]
  exact ⟨hcount1Z, hcount1ZL, hcount1U, hcount1UL, hcount2Z, hcount2U,
    fun b ts' t h => detect_zone_intrusion_authorized b ts' t h⟩

/-- The spec's end-to-end scenario: a restricted `(0,0)-(100,100)` zone, an
intruder track at `(50,50)`. -/
def intrusionZoneW : DetectionZone :=
  ⟨"Entrance", [(0, 0), (100, 0), (100, 100), (0, 100)], "restricted",
    [ActivityType.zoneIntrusion]⟩

def intrusionAnalyzerW : Analyzer :=
  ⟨30, 60, 5, 5, [intrusionZoneW], [], [], [], []⟩

def intruderTrackW : TrackState :=
  ⟨1, ⟨25, 25, 75, 75⟩, (50, 50), ⟨⟨25, 25, 75, 75⟩, 9/10, 0, "person"⟩, 9/10,
    0, 0, 10, [], "unknown", AuthStatus.intruder⟩

/-- Witness for `zone_intrusion_dedup_spec` at the end-to-end scenario. -/
theorem zone_intrusion_dedup_spec_witness :
    countType (analyze_frame (fun _ => 0) intrusionAnalyzerW []
      [(1, intruderTrackW)] 100).1 ActivityType.zoneIntrusion = 1 ∧
    countTypeLevel (analyze_frame (fun _ => 0) intrusionAnalyzerW []
      [(1, intruderTrackW)] 100).1 ActivityType.zoneIntrusion ThreatLevel.high = 1 ∧
    countType (analyze_frame (fun _ => 0) intrusionAnalyzerW []
      [(1, intruderTrackW)] 100).1 ActivityType.unauthorizedPerson = 1 ∧
    countTypeLevel (analyze_frame (fun _ => 0) intrusionAnalyzerW []
      [(1, intruderTrackW)] 100).1 ActivityType.unauthorizedPerson ThreatLevel.high = 1 ∧
    countType (analyze_frame (fun _ => 0)
      (analyze_frame (fun _ => 0) intrusionAnalyzerW []
        [(1, intruderTrackW)] 100).2 [] [(1, intruderTrackW)] 101).1
      ActivityType.zoneIntrusion = 0 ∧
    countType (analyze_frame (fun _ => 0)
      (analyze_frame (fun _ => 0) intrusionAnalyzerW []
        [(1, intruderTrackW)] 100).2 [] [(1, intruderTrackW)] 101).1
      ActivityType.unauthorizedPerson = 0 ∧
    (∀ (b : Analyzer) (ts' : TrackState) (t : ℚ),
      ts'.authorizationStatus = AuthStatus.authorized →
      (detect_zone_intrusion b ts' t).1 = none) :=
  zone_intrusion_dedup_spec (fun _ => 0) intrusionAnalyzerW 1 intruderTrackW
    100 101 intrusionZoneW (by decide) rfl (by decide) rfl rfl (by decide) rfl

end AIEyes
